import Mathlib

/-!
Verification of the yplayer cache-resolution and track-state engine.

This file gives a shallow embedding, in Lean, of the pure logic of the
yplayer repository (`yplayer/core.py`, `yplayer/albums.py`,
`yplayer/playlist.py`, `yplayer/enhanced_browse.py`,
`yplayer/enhanced_playback.py`).  Filesystem state is modelled explicitly
(a cache is a list of directory entries), network and subprocess effects
are modelled as oracle parameters, and Python exceptions are modelled with
`Except`/`Option`.  Each definition mirrors one Python function; theorems
at the end settle the frozen claims about the specification.
-/

namespace Yplayer

/-! ## Basic string helpers -/

/-- Numeric value of a digit string read left to right, as Python `int`
does on a string of decimal digits. -/
def digitsVal (cs : List Char) : Nat :=
  cs.foldl (fun acc c => acc * 10 + (c.toNat - 48)) 0

/-- ASCII decimal digit test (`str.isdigit` on the characters the code
feeds it). -/
def isDigitChar (c : Char) : Bool := c.isDigit

/-! ## ISO-8601 duration parsing

Two distinct parsers exist in the source:

* `core.py _parse_iso8601_duration` (used by the YouTube Data API client
  `yt_api_durations` / `yt_api_video_info`): a character loop that demands
  the string start with `"PT"` and assigns accumulated digit runs to the
  `H`/`M`/`S` letters.  It has no notion of a days component.
* `enhanced_browse.py _parse_iso8601_duration` (used for sidecar duration
  strings): anchored regex
  `^P(?:(\d+)D)?(?:T(?:(\d+)H)?(?:(\d+)M)?(?:(\d+)S)?)?$`.
-/

/-- The scanning loop of `core.py _parse_iso8601_duration` over the
characters after the `"PT"` marker.  State: hours, minutes, seconds so
far, and the pending digit run `num`. -/
def isoCoreLoop : List Char → Nat → Nat → Nat → List Char → Nat
  | [], h, m, sec, _num => h * 3600 + m * 60 + sec
  | c :: rest, h, m, sec, num =>
    if isDigitChar c then isoCoreLoop rest h m sec (num ++ [c])
    else if num = [] then isoCoreLoop rest h m sec num
    else
      let v := digitsVal num
      if c = 'H' then isoCoreLoop rest v m sec []
      else if c = 'M' then isoCoreLoop rest h v sec []
      else if c = 'S' then isoCoreLoop rest h m v []
      else isoCoreLoop rest h m sec []

/-- `core.py _parse_iso8601_duration`: `None` for a falsy argument or one
not starting with `"PT"`; otherwise runs the character loop. -/
def parseIso8601DurationCore (s : Option String) : Option Nat :=
  match s with
  | none => none
  | some str =>
    match str.data with
    | 'P' :: 'T' :: rest => some (isoCoreLoop rest 0 0 0 [])
    | _ => none

/-- One optional regex component `(?:(\d+)c)?` at the head of the input:
if a nonempty digit run immediately followed by the letter `c` is
present it is consumed and valued, otherwise the component matches the
empty string and consumes nothing. -/
def isoComp (c : Char) (cs : List Char) : Nat × List Char :=
  let ds := cs.takeWhile isDigitChar
  let rest := cs.dropWhile isDigitChar
  match ds, rest with
  | _ :: _, c2 :: rest2 =>
    if c2 = c then (digitsVal ds, rest2) else (0, cs)
  | _, _ => (0, cs)

/-- `enhanced_browse.py _parse_iso8601_duration`: the anchored regex
`^P(?:(\d+)D)?(?:T(?:(\d+)H)?(?:(\d+)M)?(?:(\d+)S)?)?$`, valued as
`days*86400 + hours*3600 + minutes*60 + seconds`; `none` when the regex
does not match. -/
def parseIso8601DurationBrowse (s : String) : Option Nat :=
  match s.data with
  | 'P' :: cs =>
    let dz := isoComp 'D' cs
    match dz.2 with
    | [] => some (dz.1 * 86400)
    | 'T' :: cs2 =>
      let hz := isoComp 'H' cs2
      let mz := isoComp 'M' hz.2
      let sz := isoComp 'S' mz.2
      if sz.2 = [] then some (dz.1 * 86400 + hz.1 * 3600 + mz.1 * 60 + sz.1)
      else none
    | _ => none
  | _ => none

/-! ## Python truthiness helpers -/

/-- Python truthiness of an optional string: `None` and `""` are falsy.
`truthyStr o` is `some s` exactly when `o` holds a nonempty string. -/
def truthyStr : Option String → Option String
  | some s => if s = "" then none else some s
  | none => none

/-- Python `a or b` on optional strings (`""` falls through like `None`). -/
def pyOrS (a b : Option String) : Option String :=
  match truthyStr a with
  | some s => some s
  | none => b

/-- Python `a or b` on optional naturals (`0` is falsy and falls through). -/
def pyOrN (a b : Option Nat) : Option Nat :=
  match a with
  | some n => if n = 0 then b else some n
  | none => b

/-! ## Albums (`yplayer/albums.py`)

An album manifest file holds `{name, description, tracks}`.  The mutation
methods read the file, transform the data, and rewrite the file only on
success; we model the file content as an `AlbumData` value threaded
through each operation, so "the file is unchanged" is "the returned
album equals the input album". -/

structure ATrack where
  id : Option String := none
  title : Option String := none
  uploader : Option String := none
  duration : Option Nat := none
  webpageUrl : Option String := none
  order : Option Int := none
  deriving DecidableEq

structure AlbumData where
  name : String
  description : String
  tracks : List ATrack
  deriving DecidableEq

/-- `AlbumManager.add_track_to_album`: collects the truthy ids already in
the album, rejects the new track if its id is in that set, otherwise
appends it and rewrites the file.  Returns (success, file content after
the call). -/
def addTrackToAlbum (a : AlbumData) (t : ATrack) : Bool × AlbumData :=
  let existingIds := a.tracks.filterMap (fun tr => truthyStr tr.id)
  let isDup :=
    match t.id with
    | some s => existingIds.contains s
    | none => false
  if isDup then (false, a)
  else (true, { a with tracks := a.tracks ++ [t] })

/-- `AlbumManager.remove_track_from_album`: filters out tracks whose id
equals `trackId`; if nothing was removed it reports failure and does not
rewrite the file. -/
def removeTrackFromAlbum (a : AlbumData) (trackId : String) : Bool × AlbumData :=
  let kept := a.tracks.filter (fun tr => tr.id ≠ some trackId)
  if kept.length = a.tracks.length then (false, a)
  else (true, { a with tracks := kept })

/-! ## Download wrapper retry (`core.py _ydl_extract`)

`_ydl_extract` calls `YoutubeDL.extract_info`; if that raises
`DownloadError` it runs `_auto_update_ytdlp()` (which swallows all of its
own failures, so its outcome cannot influence control flow) and calls
`extract_info` a second time outside any handler, so a second failure
propagates to the caller.  The two `extract_info` outcomes are supplied
as oracles. -/

inductive YdlErr
  | downloadError (msg : String)
  | otherError (msg : String)
  deriving DecidableEq

structure YdlTrace (α : Type) where
  result : Except YdlErr α
  extractCalls : Nat
  updateAttempted : Bool

def ydlExtract {α : Type} (attempt1 attempt2 : Except YdlErr α) : YdlTrace α :=
  match attempt1 with
  | .ok v => ⟨.ok v, 1, false⟩
  | .error (.downloadError _) => ⟨attempt2, 2, true⟩
  | .error (.otherError m) => ⟨.error (.otherError m), 1, false⟩

/-! ## Prefetcher (`yplayer/playlist.py`)

One wake cycle of `Prefetcher.run` (stop signal not raised during the
cycle).  The cache lookup `find_existing(cache_dir, id, title)` and the
orchestrator call `resolve_and_maybe_download(url, ...)` are oracles; a
lookup that raises is the same as a miss (the code catches and sets
`cached = None`), and every fetch outcome — including an exception — is
recorded but never propagated (`except Exception: pass`). -/

structure PEntry where
  id : Option String := none
  title : Option String := none
  uploader : Option String := none
  webpageUrl : Option String := none
  duration : Option Nat := none
  path : Option String := none
  deriving DecidableEq

/-- Loop body of the prefetch scan for index `i`: check the cache; on a
hit annotate the entry path in place, otherwise call the orchestrator
and log the (swallowed) outcome. -/
def prefetchStep (lookup : Option String → Option String → Option String)
    (fetch : Option String → Except Unit Unit)
    (acc : List PEntry × List (Nat × Except Unit Unit)) (i : Nat) :
    List PEntry × List (Nat × Except Unit Unit) :=
  match acc.1[i]? with
  | none => acc
  | some entry =>
    match lookup entry.id entry.title with
    | some p => (acc.1.set i { entry with path := some p }, acc.2)
    | none => (acc.1, acc.2 ++ [(i, fetch entry.webpageUrl)])

/-- One wake cycle of `Prefetcher.run`:
`start = idx + 1`, `stop = min(len(entries), start + prefetch_count)`,
iterating `i` over `range(start, stop)`. -/
def prefetchCycle (entries : List PEntry) (idx n : Nat)
    (lookup : Option String → Option String → Option String)
    (fetch : Option String → Except Unit Unit) :
    List PEntry × List (Nat × Except Unit Unit) :=
  let start := idx + 1
  let stop := min entries.length (start + n)
  (List.range' start (stop - start)).foldl (prefetchStep lookup fetch) (entries, [])

/-! ## Playback control (`yplayer/enhanced_playback.py`, `yplayer/mpv_player.py`)

The player is modelled by which file (if any) a live player process is
playing, plus a trace of observable events.  `EnhancedPlayer.play`
delegates to `MPVPlayer.play` when mpv is available (which checks file
existence *before* stopping) and otherwise stops first, checks
existence, then spawns the process.  The spawn outcome is the oracle
`startOk`. -/

structure PlayerSt where
  playing : Option String
  deriving DecidableEq

inductive PEvent
  | stop
  | start (path : String)
  deriving DecidableEq

/-- `stop`: terminates the live process if there is one (both backends
guard on the process handle being set). -/
def playerStop (ps : PlayerSt) : PlayerSt × List PEvent :=
  match ps.playing with
  | some _ => (⟨none⟩, [.stop])
  | none => (ps, [])

/-- `EnhancedPlayer.play`: returns the new player state, the event
trace, and the reported success flag. -/
def playerPlay (useMpv : Bool) (ps : PlayerSt) (fileExists : String → Bool)
    (startOk : Bool) (p : String) : PlayerSt × List PEvent × Bool :=
  if useMpv then
    -- MPVPlayer.play: existence check first, then stop, then spawn
    if fileExists p = false then (ps, [], false)
    else
      let s1 := playerStop ps
      if startOk then (⟨some p⟩, s1.2 ++ [.start p], true)
      else (⟨none⟩, s1.2, false)
  else
    -- fallback branch: stop first, then existence check, then spawn
    let s1 := playerStop ps
    if fileExists p = false then (s1.1, s1.2, false)
    else if startOk then (⟨some p⟩, s1.2 ++ [.start p], true)
    else (⟨none⟩, s1.2, false)

/-! ## Browse state machine (`yplayer/enhanced_browse.py`)

`BrowseState` fields that the transitions touch.  Items are the Python
dicts flowing through the UI; one record type with optional fields
covers library tracks, album rows and playlist entries. -/

structure BItem where
  id : Option String := none
  title : Option String := none
  uploader : Option String := none
  duration : Option Nat := none
  webpageUrl : Option String := none
  path : Option String := none
  order : Option Int := none
  itemType : Option String := none
  name : Option String := none
  description : Option String := none
  trackCount : Option Nat := none
  deriving DecidableEq

inductive Mode
  | library
  | albums
  | albumDetail
  | playlist
  deriving DecidableEq

structure BrowseState where
  mode : Mode
  libraryTracks : List BItem
  currentItems : List BItem
  selection : Nat
  offset : Nat
  currentPlayingIdx : Option Nat
  currentAlbumPath : Option String
  currentlyPlayingFile : Option String
  deriving DecidableEq

/-- `BrowseState.switch_to_albums`; `albums` is the result of
`AlbumManager.list_albums()` (a filesystem read, supplied as a value).
The source deliberately does not touch `current_playing_idx`
("Don't reset current_playing_idx - music should continue"). -/
def switchToAlbums (st : BrowseState) (albums : List BItem) : BrowseState :=
  if albums.isEmpty then st
  else
    { st with mode := .albums, currentItems := albums, selection := 0, offset := 0 }

/-- `BrowseState.enter_album`; `getTracks` stands for
`AlbumManager.get_album_tracks`.  Again `current_playing_idx` is left
untouched. -/
def enterAlbum (st : BrowseState) (albumIdx : Nat)
    (getTracks : String → List BItem) : BrowseState :=
  if albumIdx ≥ st.currentItems.length then st
  else
    match st.currentItems[albumIdx]? with
    | none => st
    | some album =>
      match truthyStr album.path with
      | none => st
      | some p =>
        let tracks := getTracks p
        if tracks.isEmpty then st
        else
          { st with mode := .albumDetail, currentItems := tracks,
                    currentAlbumPath := some p, selection := 0, offset := 0 }

/-- `BrowseState.go_back`. -/
def goBack (st : BrowseState) (albums : List BItem) : BrowseState :=
  match st.mode with
  | .albumDetail => switchToAlbums st albums
  | .albums => { st with mode := .library, currentItems := st.libraryTracks }
  | .playlist => { st with mode := .library, currentItems := st.libraryTracks }
  | .library => st

/-- The §3 invariant: `current_playing_idx`, when not none, indexes into
the current `current_items` collection. -/
def playingIdxValid (st : BrowseState) : Bool :=
  match st.currentPlayingIdx with
  | none => true
  | some i => i < st.currentItems.length

/-- The path-resolution prefix of `play_item`: a truthy item path is
used directly; otherwise, with a truthy URL, the orchestrator outcome
either aborts the call (exception: state untouched) or annotates the
item in place (`item["path"] = path` plus the two enrichment helpers). -/
def playItemResolve (st : BrowseState) (item : BItem) (idx : Nat)
    (resolveOutcome : Except Unit String) (enrich : BItem → BItem) :
    BrowseState × Option String :=
  match truthyStr item.path with
  | some p => (st, some p)
  | none =>
    match truthyStr item.webpageUrl with
    | none => (st, none)
    | some _ =>
      match resolveOutcome with
      | .error _ => (st, none)
      | .ok p =>
        let item2 := enrich { item with path := some p }
        ({ st with currentItems := st.currentItems.set idx item2 }, some p)

/-- `BrowseState.play_item`: `resolveOutcome` is the orchestrator call
for the item's URL (only consulted when the item has no truthy path and
a truthy URL), `enrich` stands for `_ensure_item_duration` plus
`_ensure_item_uploader` applied to the annotated item, `fileExists` is
`os.path.exists`.  Returns the new browse state, the new player state,
and the player event trace. -/
def playItem (st : BrowseState) (ps : PlayerSt) (idx : Nat)
    (resolveOutcome : Except Unit String) (enrich : BItem → BItem)
    (fileExists : String → Bool) (useMpv startOk : Bool) :
    BrowseState × PlayerSt × List PEvent :=
  if idx ≥ st.currentItems.length then (st, ps, [])
  else
    match st.currentItems[idx]? with
    | none => (st, ps, [])
    | some item =>
      let resolved := playItemResolve st item idx resolveOutcome enrich
      match resolved.2 with
      | none => (resolved.1, ps, [])
      | some p =>
        if fileExists p then
          let r := playerPlay useMpv ps fileExists startOk p
          if r.2.2 then
            ({ resolved.1 with currentPlayingIdx := some idx,
                               currentlyPlayingFile := some p }, r.1, r.2.1)
          else
            ({ resolved.1 with currentPlayingIdx := none,
                               currentlyPlayingFile := none }, r.1, r.2.1)
        else (resolved.1, ps, [])

/-! ## Filename and title helpers (`core.py`) -/

/-- Python whitespace characters relevant to `str.strip` and `\s`. -/
def isPySpace (c : Char) : Bool :=
  c = ' ' || c = '\t' || c = '\n' || c = '\r' || c = '\x0b' || c = '\x0c'

/-- `str.strip()`. -/
def stripL (cs : List Char) : List Char :=
  ((cs.dropWhile isPySpace).reverse.dropWhile isPySpace).reverse

/-- List-level prefix test. -/
def isPrefixOfL : List Char → List Char → Bool
  | [], _ => true
  | _ :: _, [] => false
  | a :: as, b :: bs => a = b && isPrefixOfL as bs

/-- Python substring containment (`needle in haystack`). -/
def containsSubL (needle : List Char) : List Char → Bool
  | [] => isPrefixOfL needle []
  | b :: bs => isPrefixOfL needle (b :: bs) || containsSubL needle bs

/-- `os.path.splitext` on a bare filename: split at the last dot,
provided some non-dot character precedes it (leading dots never start an
extension). -/
def splitExtL (cs : List Char) : List Char × List Char :=
  let post := cs.reverse.takeWhile (fun c => decide (c ≠ '.'))
  if post.length = cs.length then (cs, [])
  else
    let root := cs.take (cs.length - post.length - 1)
    if root.any (fun c => decide (c ≠ '.')) then (root, '.' :: post.reverse)
    else (cs, [])

/-- `os.path.splitext(name)[1].lstrip(".").lower()`, the extension
normalisation the cache code applies everywhere. -/
def extOf (name : String) : String :=
  ⟨((splitExtL name.data).2.dropWhile (fun c => c = '.')).map Char.toLower⟩

/-- `config.KNOWN_EXTS`. -/
def knownExts : List String :=
  ["mp3", "m4a", "opus", "flac", "wav", "webm", "ogg", "oga", "aac"]

/-- Characters removed by `_sanitize_title`:
the class `[:\/\\?*"<>|\n\r\t]`. -/
def isHostileChar (c : Char) : Bool :=
  c = ':' || c = '/' || c = '\\' || c = '?' || c = '*' || c = '"' ||
  c = '<' || c = '>' || c = '|' || c = '\n' || c = '\r' || c = '\t'

/-- `re.sub(r'\s+', ' ', s)`: each whitespace run becomes one space.
The flag records whether the previous character was whitespace. -/
def collapseWsGo : List Char → Bool → List Char
  | [], _ => []
  | c :: rest, prevSpace =>
    if isPySpace c then
      if prevSpace then collapseWsGo rest true
      else ' ' :: collapseWsGo rest true
    else c :: collapseWsGo rest false

/-- `core.py _sanitize_title`: strip, drop path-hostile characters,
collapse whitespace, cap at 200 characters, strip again; `""` for a
falsy title. -/
def sanitizeTitle (title : Option String) : String :=
  match truthyStr title with
  | none => ""
  | some t =>
    let s1 := stripL t.data
    let s2 := s1.filter (fun c => !isHostileChar c)
    let s3 := collapseWsGo s2 false
    ⟨stripL (s3.take 200)⟩

/-! ## URL and id parsing (`core.py`) -/

/-- The character class `[0-9A-Za-z_-]` of `YOUTUBE_ID_RE`. -/
def isIdChar (c : Char) : Bool :=
  c.isAlphanum || c = '_' || c = '-'

/-- Try `(?:v=|\/)([0-9A-Za-z_-]{11})(?:[^0-9A-Za-z_-]|$)` at the head
of `cs` and return the captured group. -/
def matchIdAt (cs : List Char) : Option String :=
  let afterPre : Option (List Char) :=
    match cs with
    | 'v' :: '=' :: rest => some rest
    | '/' :: rest => some rest
    | _ => none
  match afterPre with
  | none => none
  | some rest =>
    let idPart := rest.take 11
    let tail := rest.drop 11
    if idPart.all isIdChar && idPart.length = 11 then
      match tail with
      | [] => some ⟨idPart⟩
      | c :: _ => if isIdChar c then none else some ⟨idPart⟩
    else none

/-- `re.search`: try the pattern at each position, left to right. -/
def extractIdScan : List Char → Option String
  | [] => none
  | c :: rest =>
    match matchIdAt (c :: rest) with
    | some v => some v
    | none => extractIdScan rest

/-- `core.py extract_video_id`. -/
def extractVideoId (url : String) : Option String :=
  if url = "" then none else extractIdScan url.data

/-- `core.py is_url`: `YOUTUBE_URL_RE` is
`(https?://)?(www\.)?(youtube\.com|youtu\.be)/` searched
case-insensitively; both prefix groups are optional (they can match the
empty string), so the search succeeds exactly when the lowered string
contains `"youtube.com/"` or `"youtu.be/"`. -/
def isUrl (s : String) : Bool :=
  let l := s.data.map Char.toLower
  containsSubL "youtube.com/".data l || containsSubL "youtu.be/".data l

/-! ## The cache root filesystem model

The cache root directory listing is a list of entries in `os.listdir`
order: subdirectories (per-item layout) and flat files (legacy layout).
For a subdirectory we record its `meta.json` status and its other files
in listing order; flat-file contents are not needed by the lookups the
claims exercise. -/

structure SMeta where
  id : Option String := none
  title : Option String := none
  uploader : Option String := none
  duration : Option Nat := none
  webpageUrl : Option String := none
  deriving DecidableEq

structure CDir where
  name : String
  /-- `none`: no `meta.json`; `some none`: a `meta.json` that fails to
  read or parse; `some (some m)`: a readable `meta.json`. -/
  meta : Option (Option SMeta)
  /-- the non-`meta.json` files of the directory, in listing order. -/
  files : List String
  deriving DecidableEq

inductive FsEntry
  | dir (d : CDir)
  | flat (name : String)
  deriving DecidableEq

abbrev Cache := List FsEntry

def FsEntry.entryName : FsEntry → String
  | .dir d => d.name
  | .flat n => n

/-- `os.path.exists` directly under the cache root. -/
def pathExists (c : Cache) (name : String) : Bool :=
  c.any (fun e => e.entryName = name)

/-- `core.py _iter_track_dirs`: subdirectories holding a `meta.json`,
in listing order. -/
def iterTrackDirs (c : Cache) : List CDir :=
  c.filterMap (fun e =>
    match e with
    | .dir d => if d.meta.isSome then some d else none
    | .flat _ => none)

/-- `core.py _first_audio_in_dir`: first file whose normalised extension
is a known audio extension; returns its joined path. -/
def firstAudioInDir (d : CDir) : Option String :=
  (d.files.find? (fun f => knownExts.contains (extOf f))).map
    (fun f => d.name ++ "/" ++ f)

/-- Tier 0 of `find_existing`: per-item directories whose `meta.json` id
matches; unreadable metadata is skipped; a matching directory without an
audio file is skipped too. -/
def findPerTrack (c : Cache) (vid : String) : Option String :=
  (iterTrackDirs c).findSome? (fun d =>
    match d.meta with
    | some (some m) => if m.id = some vid then firstAudioInDir d else none
    | _ => none)

/-- `core.py _pick_existing_path`: exact `<id>.<ext>` existence for each
known extension, then any listing entry whose name contains the id and
has a known audio extension. -/
def pickExistingPath (c : Cache) (vid : String) : Option String :=
  match knownExts.findSome? (fun ext =>
      let cand := vid ++ "." ++ ext
      if pathExists c cand then some cand else none) with
  | some p => some p
  | none =>
    c.findSome? (fun e =>
      if containsSubL vid.data e.entryName.data
          && knownExts.contains (extOf e.entryName) then
        some e.entryName
      else none)

/-- Tier 2 of `find_existing` (the title-based block): exact sanitized
title with each known extension, then case-insensitive
prefix-or-substring match of the sanitized title against each listing
name without its extension. -/
def findByTitle (c : Cache) (title : Option String) : Option String :=
  match truthyStr title with
  | none => none
  | some _ =>
    let san := sanitizeTitle title
    if san = "" then none
    else
      match knownExts.findSome? (fun ext =>
          let cand := san ++ "." ++ ext
          if pathExists c cand then some cand else none) with
      | some p => some p
      | none =>
        let sanL := san.data.map Char.toLower
        c.findSome? (fun e =>
          let noext := (splitExtL e.entryName.data).1.map Char.toLower
          if (isPrefixOfL sanL noext || containsSubL sanL noext)
              && knownExts.contains (extOf e.entryName) then
            some e.entryName
          else none)

/-- `core.py find_existing` (the cache root is modelled as present, so
only the id truthiness guard of `if not cache_dir or not vid` remains). -/
def findExisting (c : Cache) (vid : Option String) (title : Option String) :
    Option String :=
  match truthyStr vid with
  | none => none
  | some v =>
    match findPerTrack c v with
    | some p => some p
    | none =>
      match pickExistingPath c v with
      | some p => some p
      | none => findByTitle c title

/-! ## Sidecar writes and download orchestration (`core.py`) -/

/-- Writing a flat file under the cache root (file content is not
modelled; an existing entry of the same name keeps its slot). -/
def writeFlatFile (c : Cache) (name : String) : Cache :=
  if pathExists c name then c else c ++ [.flat name]

/-- Writing (or overwriting) `meta.json` inside the named track
directory, creating the directory when absent. -/
def writeDirMeta (c : Cache) (td : String) (m : SMeta) : Cache :=
  if c.any (fun e => match e with | .dir d => d.name = td | .flat _ => false) then
    c.map (fun e =>
      match e with
      | .dir d => if d.name = td then .dir { d with meta := some (some m) } else .dir d
      | .flat f => .flat f)
  else c ++ [.dir { name := td, meta := some (some m), files := [] }]

/-- `core.py save_sidecar`: with a falsy id nothing at all is written;
otherwise the legacy `<cache>/<id>.json` flat sidecar is written and,
when a track directory is given, its `meta.json` as well (write failures
are swallowed in the source; writes succeed in this model). -/
def saveSidecar (c : Cache) (m : SMeta) (trackDir : Option String) : Cache :=
  match truthyStr m.id with
  | none => c
  | some vid =>
    let c1 := writeFlatFile c (vid ++ ".json")
    match trackDir with
    | none => c1
    | some td => writeDirMeta c1 td m

/-- `core.py _track_dir_name`. -/
def trackDirName (title : Option String) (vid : Option String) : String :=
  let sanTitle : Option String :=
    match truthyStr title with
    | some _ => some (sanitizeTitle title)
    | none => none
  let base := (pyOrS sanTitle (pyOrS vid (some "track"))).getD "track"
  match truthyStr vid with
  | some v => base ++ " [" ++ (⟨v.data.take 8⟩ : String) ++ "]"
  | none => base

/-! ## Metadata provider (`core.py` YouTube Data API client) -/

/-- One item of a `videos.list` response: the snippet/contentDetails
fields the client reads.  `durationIso` is the raw ISO-8601 string. -/
structure ApiVideo where
  title : Option String := none
  uploader : Option String := none
  durationIso : Option String := none
  deriving DecidableEq

inductive NetErr
  | urlError (msg : String)
  deriving DecidableEq

/-- Python exceptions relevant to the orchestration: `die` raises
`SystemExit`, which `except Exception` does not catch; network errors
are ordinary exceptions. -/
inductive PyExc
  | sysExit (msg : String)
  | exc (e : NetErr)
  deriving DecidableEq

structure VInfo where
  id : String
  title : String
  uploader : Option String
  duration : Option Nat
  webpageUrl : String
  deriving DecidableEq

def watchUrl (vid : String) : String :=
  "https://www.youtube.com/watch?v=" ++ vid

/-- `core.py yt_api_video_info`: the HTTP call is the oracle `api`
(keyed by video id; `.ok none` models an empty `items` list).  The
response is shaped exactly as the source does, including parsing the
ISO-8601 duration with the core parser. -/
def ytApiVideoInfo (vid : String) (api : String → Except NetErr (Option ApiVideo)) :
    Except NetErr (Option VInfo) :=
  match api vid with
  | .error e => .error e
  | .ok none => .ok none
  | .ok (some v) =>
    .ok (some { id := vid,
                title := (pyOrS v.title (some vid)).getD vid,
                uploader := v.uploader,
                duration := parseIso8601DurationCore v.durationIso,
                webpageUrl := watchUrl vid })

/-- `core.py video_info_from_url`: `die` (SystemExit) when the API key
is missing, when no id can be extracted, or when the video is not found;
a network failure propagates as an ordinary exception. -/
def videoInfoFromUrl (url : String) (keyPresent : Bool)
    (api : String → Except NetErr (Option ApiVideo)) : Except PyExc VInfo :=
  if !keyPresent then .error (.sysExit "api key missing")
  else
    match extractVideoId url with
    | none => .error (.sysExit "could not extract video id")
    | some vid =>
      match ytApiVideoInfo vid api with
      | .error e => .error (.exc e)
      | .ok none => .error (.sysExit "video not found")
      | .ok (some i) => .ok i

/-- What the external downloader reports for one successful download:
its info-dict fields and the extension of the audio file it writes as
`audio.<ext>` in the track directory. -/
structure DlReport where
  id : Option String := none
  title : Option String := none
  uploader : Option String := none
  duration : Option Nat := none
  webpageUrl : Option String := none
  ext : String
  deriving DecidableEq

/-- `os.makedirs(track_dir, exist_ok=True)` under the cache root. -/
def ensureTrackDir (c : Cache) (td : String) : Cache :=
  if c.any (fun e => match e with | .dir d => d.name = td | .flat _ => false) then c
  else c ++ [.dir { name := td, meta := none, files := [] }]

/-- The downloader writing `fname` into the named track directory. -/
def addFileToDir (c : Cache) (td fname : String) : Cache :=
  c.map (fun e =>
    match e with
    | .dir d =>
      if d.name = td then
        .dir { d with files := if d.files.contains fname then d.files
                               else d.files ++ [fname] }
      else .dir d
    | .flat f => .flat f)

/-- `core.py download_audio` on its success path (the extraction itself
succeeds; the `_ydl_extract` retry ladder is modelled by `ydlExtract`).
The metadata step is the source's: with a key present it calls
`video_info_from_url`, catching only ordinary exceptions (degrading to
`extract_video_id(url)`) — `die`'s SystemExit escapes both handlers and
aborts.  The realized output path is the downloader-reported
`<track_dir>/audio.<ext>`. -/
def downloadAudio (c : Cache) (url : String) (keyPresent : Bool)
    (api : String → Except NetErr (Option ApiVideo)) (dl : DlReport) :
    Except PyExc (Cache × String) :=
  let metaStep : Except PyExc (Option String × Option String × Option String × Option Nat) :=
    if keyPresent then
      match videoInfoFromUrl url keyPresent api with
      | .ok i => .ok (some i.id, some i.title, i.uploader, i.duration)
      | .error (.exc _) => .ok (extractVideoId url, none, none, none)
      | .error (.sysExit m) => .error (.sysExit m)
    else .ok (extractVideoId url, none, none, none)
  match metaStep with
  | .error e => .error e
  | .ok (vid, title, uploader, duration) =>
    let td := trackDirName title vid
    let c1 := ensureTrackDir c td
    let audioName := "audio." ++ dl.ext
    let c2 := addFileToDir c1 td audioName
    let finalPath := td ++ "/" ++ audioName
    let vidFinal := pyOrS dl.id (pyOrS vid (extractVideoId url))
    let meta : SMeta :=
      { id := vidFinal,
        title := pyOrS title (pyOrS dl.title vidFinal),
        uploader := pyOrS uploader dl.uploader,
        duration := pyOrN duration dl.duration,
        webpageUrl := pyOrS dl.webpageUrl (some url) }
    .ok (saveSidecar c2 meta (some td), finalPath)

/-- `core.py resolve_and_maybe_download`.  The second component records
whether the download path (`download_audio`) was invoked.  Note the
metadata fetch is performed with no surrounding handler: its failure
propagates. -/
def resolveAndMaybeDownload (c : Cache) (ref : String) (keyPresent : Bool)
    (api : String → Except NetErr (Option ApiVideo)) (dl : DlReport) :
    Except PyExc (Cache × String) × Bool :=
  if !isUrl ref then
    (.error (.sysExit "refusing to download from a search query"), false)
  else
    match videoInfoFromUrl ref keyPresent api with
    | .error e => (.error e, false)
    | .ok info =>
      let vid := info.id
      match findExisting c (some vid) (some info.title) with
      | some p => (.ok (c, p), false)
      | none =>
        let c1 := saveSidecar c
          { id := some vid, title := some info.title, uploader := info.uploader,
            duration := info.duration, webpageUrl := some info.webpageUrl } none
        match downloadAudio c1 info.webpageUrl keyPresent api dl with
        | .error e => (.error e, true)
        | .ok (c2, p) => (.ok (c2, p), true)

/-! ## Theorems settling the claims -/

/-- C10: `save_sidecar` called with a record whose identifier is missing
(absent or empty, i.e. falsy) writes no sidecar file at all — neither
the legacy `<cache_root>/<id>.json` nor any per-item `meta.json` — and
returns normally (the model function is total): the cache is returned
unchanged. -/
theorem save_sidecar_missing_id_noop (c : Cache) (m : SMeta) (td : Option String)
    (h : truthyStr m.id = none) : saveSidecar c m td = c := by
  unfold saveSidecar
  rw [h]

/-- Witness for `save_sidecar_missing_id_noop` at a concrete cache, a
record with no id, and a per-item directory argument. -/
theorem save_sidecar_missing_id_noop_witness :
    saveSidecar [.flat "x.json"] { id := none, title := some "t" } (some "d")
      = [.flat "x.json"] :=
  save_sidecar_missing_id_noop [.flat "x.json"] { id := none, title := some "t" }
    (some "d") rfl

/-- C6: album mutations are rejected without changing the album: adding
a track whose (truthy) id already occurs in the album returns failure
and leaves the album — hence its on-disk track list and count —
unchanged, and removing a track id not present returns failure and
leaves the album file unchanged. -/
theorem album_mutation_rejection :
    (∀ (a : AlbumData) (t : ATrack) (s : String), t.id = some s → s ≠ "" →
      (∃ tr ∈ a.tracks, tr.id = some s) → addTrackToAlbum a t = (false, a)) ∧
    (∀ (a : AlbumData) (tid : String),
      (∀ tr ∈ a.tracks, tr.id ≠ some tid) → removeTrackFromAlbum a tid = (false, a)) := by
  constructor
  · intro a t s hid hs ⟨tr, htr, htrid⟩
    unfold addTrackToAlbum
    have hmem : s ∈ a.tracks.filterMap (fun tr => truthyStr tr.id) := by
      refine List.mem_filterMap.mpr ⟨tr, htr, ?_⟩
      rw [htrid]
      simp [truthyStr, hs]
    have hdup : (match t.id with
        | some s => (a.tracks.filterMap (fun tr => truthyStr tr.id)).contains s
        | none => false) = true := by
      rw [hid]
      simpa using hmem
    simp only [hdup, if_pos]
  · intro a tid h
    have hfix : a.tracks.filter (fun tr => tr.id ≠ some tid) = a.tracks := by
      refine List.filter_eq_self.mpr ?_
      intro tr htr
      simpa using h tr htr
    unfold removeTrackFromAlbum
    rw [hfix]
    simp

/-- Witness for `album_mutation_rejection`: a two-track album rejects a
duplicate add and a remove of an absent id, both leaving it unchanged. -/
theorem album_mutation_rejection_witness :
    addTrackToAlbum ⟨"A", "", [{ id := some "x" }, { id := some "y" }]⟩ { id := some "y" }
        = (false, ⟨"A", "", [{ id := some "x" }, { id := some "y" }]⟩) ∧
    removeTrackFromAlbum ⟨"A", "", [{ id := some "x" }, { id := some "y" }]⟩ "z"
        = (false, ⟨"A", "", [{ id := some "x" }, { id := some "y" }]⟩) :=
  ⟨album_mutation_rejection.1 _ { id := some "y" } "y" rfl (by decide)
      ⟨{ id := some "y" }, by decide, rfl⟩,
    album_mutation_rejection.2 _ "z" (by decide)⟩

/-- C9: when the first `extract_info` attempt reports a `DownloadError`,
`_ydl_extract` attempts one self-update of the tool and retries exactly
once, and the second outcome — success or failure — is returned as-is
(a second failure propagates as fatal); any other first outcome is
returned directly with no update and no retry, so at most two extraction
attempts ever happen. -/
theorem ydl_extract_single_retry {α : Type} (a1 a2 : Except YdlErr α) :
    (ydlExtract a1 a2).extractCalls ≤ 2 ∧
    ((ydlExtract a1 a2).updateAttempted = true ↔
      ∃ m, a1 = .error (.downloadError m)) ∧
    (∀ m, a1 = .error (.downloadError m) →
      ydlExtract a1 a2 = ⟨a2, 2, true⟩) ∧
    (∀ v, a1 = .ok v → ydlExtract a1 a2 = ⟨.ok v, 1, false⟩) ∧
    (∀ m, a1 = .error (.otherError m) →
      ydlExtract a1 a2 = ⟨.error (.otherError m), 1, false⟩) := by
  rcases a1 with e | v
  · rcases e with m | m <;> simp [ydlExtract]
  · simp [ydlExtract]

/-- Witness for `ydl_extract_single_retry`: both attempts fail with a
download error; the update is attempted, the retry happens, and the
second error is what propagates. -/
theorem ydl_extract_single_retry_witness :
    ydlExtract (α := Nat) (.error (.downloadError "e1")) (.error (.downloadError "e2"))
      = ⟨.error (.downloadError "e2"), 2, true⟩ :=
  (ydl_extract_single_retry (.error (.downloadError "e1"))
    (.error (.downloadError "e2"))).2.2.1 "e1" rfl

/-- C3 counterexample: the claimed invariant — `current_playing_idx`,
when not none, always indexes into the current `current_items` — is
violated by `switch_to_albums`: with track 1 of a two-track library
playing, switching to a one-album view keeps `current_playing_idx = 1`,
which is out of bounds for the new collection and not none. -/
theorem playing_idx_transition_counterexample :
    let st : BrowseState :=
      { mode := .library,
        libraryTracks := [{ title := some "a" }, { title := some "b" }],
        currentItems := [{ title := some "a" }, { title := some "b" }],
        selection := 0, offset := 0, currentPlayingIdx := some 1,
        currentAlbumPath := none, currentlyPlayingFile := none }
    let albums : List BItem := [{ name := some "Alb", trackCount := some 2 }]
    playingIdxValid st = true ∧
    (switchToAlbums st albums).currentPlayingIdx = some 1 ∧
    playingIdxValid (switchToAlbums st albums) = false := by
  decide

/-- C3 amended: the transitions that replace `current_items`
(`switch_to_albums`, `enter_album`, `go_back`) always leave
`current_playing_idx` unchanged — they never reset it to none — so the
bound invariant survives a transition exactly when the retained index is
below the new collection's length, and is violated otherwise. -/
theorem transitions_preserve_playing_idx (st : BrowseState) (albums : List BItem)
    (i : Nat) (getTracks : String → List BItem) :
    (switchToAlbums st albums).currentPlayingIdx = st.currentPlayingIdx ∧
    (enterAlbum st i getTracks).currentPlayingIdx = st.currentPlayingIdx ∧
    (goBack st albums).currentPlayingIdx = st.currentPlayingIdx ∧
    (∀ j, st.currentPlayingIdx = some j →
      j < (switchToAlbums st albums).currentItems.length →
      playingIdxValid (switchToAlbums st albums) = true) := by
  have h1 : (switchToAlbums st albums).currentPlayingIdx = st.currentPlayingIdx := by
    unfold switchToAlbums
    split <;> rfl
  refine ⟨h1, ?_, ?_, ?_⟩
  · unfold enterAlbum
    repeat' split
    all_goals try rfl
    all_goals (dsimp only; split <;> rfl)
  · unfold goBack
    split
    · exact h1
    · rfl
    · rfl
    · rfl
  · intro j hj hlen
    unfold playingIdxValid
    rw [h1, hj]
    simpa using hlen

/-- Witness for `transitions_preserve_playing_idx` at a concrete
state: the retained index 0 stays within a one-album collection. -/
theorem transitions_preserve_playing_idx_witness :
    playingIdxValid
      (switchToAlbums
        { mode := .library, libraryTracks := [{ title := some "a" }],
          currentItems := [{ title := some "a" }], selection := 0, offset := 0,
          currentPlayingIdx := some 0, currentAlbumPath := none,
          currentlyPlayingFile := none }
        [{ name := some "Alb" }]) = true :=
  (transitions_preserve_playing_idx
      { mode := .library, libraryTracks := [{ title := some "a" }],
        currentItems := [{ title := some "a" }], selection := 0, offset := 0,
        currentPlayingIdx := some 0, currentAlbumPath := none,
        currentlyPlayingFile := none }
      [{ name := some "Alb" }] 0 (fun _ => [])).2.2.2 0 rfl (by decide)

/-- C2: `find_existing` tries its three tiers in fixed priority order —
per-item directories (by `meta.json` id), then the flat-file exact or
id-containing match, then the fuzzy sanitized-title match — each later
tier consulted only when every earlier tier found nothing, first hit
wins; in particular, when both a per-item-directory match and a
flat-file match exist for the same identifier, the per-item-directory
audio path is returned. -/
theorem find_existing_tier_priority (c : Cache) (v : String) (title : Option String)
    (hv : v ≠ "") :
    (∀ p, findPerTrack c v = some p → findExisting c (some v) title = some p) ∧
    (findPerTrack c v = none → ∀ p, pickExistingPath c v = some p →
      findExisting c (some v) title = some p) ∧
    (findPerTrack c v = none → pickExistingPath c v = none →
      findExisting c (some v) title = findByTitle c title) ∧
    (∀ p q, findPerTrack c v = some p → pickExistingPath c v = some q →
      findExisting c (some v) title = some p) := by
  have ht : truthyStr (some v) = some v := by simp [truthyStr, hv]
  refine ⟨?_, ?_, ?_, ?_⟩
  · intro p hp
    unfold findExisting
    rw [ht]
    dsimp only
    rw [hp]
  · intro h0 p hp
    unfold findExisting
    rw [ht]
    dsimp only
    rw [h0, hp]
  · intro h0 h1
    unfold findExisting
    rw [ht]
    dsimp only
    rw [h0, h1]
  · intro p q hp _
    unfold findExisting
    rw [ht]
    dsimp only
    rw [hp]

/-- Witness for `find_existing_tier_priority`: a cache holding both a
per-item directory (matching `meta.json` id, with an audio file) and a
legacy flat file for the same identifier resolves to the
per-item-directory audio path. -/
theorem find_existing_tier_priority_witness :
    findExisting
      [.dir { name := "Song [abcdefgh]",
              meta := some (some { id := some "abcdefghijk" }),
              files := ["audio.mp3"] },
       .flat "abcdefghijk.mp3"]
      (some "abcdefghijk") (some "Song") = some "Song [abcdefgh]/audio.mp3" :=
  (find_existing_tier_priority
      [.dir { name := "Song [abcdefgh]",
              meta := some (some { id := some "abcdefghijk" }),
              files := ["audio.mp3"] },
       .flat "abcdefghijk.mp3"]
      "abcdefghijk" (some "Song") (by decide)).2.2.2
    "Song [abcdefgh]/audio.mp3" "abcdefghijk.mp3" (by decide) (by decide)

/-! ### Lemmas about digit runs and the two ISO-8601 parsers -/

lemma takeWhile_append_of_all {p : Char → Bool} (ds rest : List Char)
    (h : ds.all p = true) :
    (ds ++ rest).takeWhile p = ds ++ rest.takeWhile p := by
  induction ds with
  | nil => simp
  | cons c t ih =>
    simp only [List.all_cons, Bool.and_eq_true] at h
    simp [List.takeWhile_cons, h.1, ih h.2]

lemma dropWhile_append_of_all {p : Char → Bool} (ds rest : List Char)
    (h : ds.all p = true) :
    (ds ++ rest).dropWhile p = rest.dropWhile p := by
  induction ds with
  | nil => simp
  | cons c t ih =>
    simp only [List.all_cons, Bool.and_eq_true] at h
    simp [List.dropWhile_cons, h.1, ih h.2]

/-- A nonempty digit run followed by exactly the component letter is
consumed and valued by `isoComp`. -/
lemma isoComp_exact (c : Char) (ds rest : List Char) (hne : ds ≠ [])
    (hall : ds.all isDigitChar = true) (hc : isDigitChar c = false) :
    isoComp c (ds ++ c :: rest) = (digitsVal ds, rest) := by
  have h1 : (ds ++ c :: rest).takeWhile isDigitChar = ds := by
    rw [takeWhile_append_of_all ds (c :: rest) hall]
    simp [List.takeWhile_cons, hc]
  have h2 : (ds ++ c :: rest).dropWhile isDigitChar = c :: rest := by
    rw [dropWhile_append_of_all ds (c :: rest) hall]
    simp [List.dropWhile_cons, hc]
  unfold isoComp
  rw [h1, h2]
  cases ds with
  | nil => exact absurd rfl hne
  | cons d dt => simp

/-- One digit step of the core scanning loop. -/
lemma isoCoreLoop_cons_digit (c : Char) (rest : List Char) (h m s : Nat)
    (num : List Char) (hc : isDigitChar c = true) :
    isoCoreLoop (c :: rest) h m s num = isoCoreLoop rest h m s (num ++ [c]) := by
  conv_lhs => rw [isoCoreLoop]
  rw [if_pos hc]

/-- Pushing a digit run through the core scanning loop accumulates it
onto the pending number. -/
lemma isoCoreLoop_digits (ds rest : List Char) (h m s : Nat) (num : List Char)
    (hall : ds.all isDigitChar = true) :
    isoCoreLoop (ds ++ rest) h m s num = isoCoreLoop rest h m s (num ++ ds) := by
  induction ds generalizing num with
  | nil => simp
  | cons c t ih =>
    simp only [List.all_cons, Bool.and_eq_true] at hall
    rw [List.cons_append, isoCoreLoop_cons_digit c _ h m s num hall.1,
      ih (num ++ [c]) hall.2]
    simp

lemma not_digit_H : isDigitChar 'H' = false := by decide
lemma not_digit_M : isDigitChar 'M' = false := by decide
lemma not_digit_S : isDigitChar 'S' = false := by decide
lemma not_digit_D : isDigitChar 'D' = false := by decide

/-- One letter step of the core loop with a nonempty pending run. -/
lemma isoCoreLoop_letter (c : Char) (rest : List Char) (h m s : Nat)
    (num : List Char) (hc : isDigitChar c = false) (hne : num ≠ []) :
    isoCoreLoop (c :: rest) h m s num =
      (if c = 'H' then isoCoreLoop rest (digitsVal num) m s []
       else if c = 'M' then isoCoreLoop rest h (digitsVal num) s []
       else if c = 'S' then isoCoreLoop rest h m (digitsVal num) []
       else isoCoreLoop rest h m s []) := by
  conv_lhs => rw [isoCoreLoop]
  simp [hc, hne]

/-- C7 counterexample: the parser used by the metadata provider
(`core.py _parse_iso8601_duration`) does not map the day-bearing form
`P1DT0H0M1S` to `1*86400 + 1 = 86401` seconds as the claim requires: it
returns none for every string not starting with `PT`.  (The browse-side
regex parser does handle it.) -/
theorem iso_duration_days_counterexample :
    parseIso8601DurationCore (some "P1DT0H0M1S") = none ∧
    parseIso8601DurationCore (some "P1DT0H0M1S") ≠ some 86401 ∧
    parseIso8601DurationBrowse "P1DT0H0M1S" = some 86401 := by
  decide

/-- Reduction of the browse parser at a `P`-headed character list. -/
lemma parseBrowse_P (cs : List Char) :
    parseIso8601DurationBrowse ⟨'P' :: cs⟩ =
      (let dz := isoComp 'D' cs
       match dz.2 with
       | [] => some (dz.1 * 86400)
       | 'T' :: cs2 =>
         let hz := isoComp 'H' cs2
         let mz := isoComp 'M' hz.2
         let sz := isoComp 'S' mz.2
         if sz.2 = [] then some (dz.1 * 86400 + hz.1 * 3600 + mz.1 * 60 + sz.1)
         else none
       | _ => none) := rfl

/-- Reduction of the core parser at an explicit character list. -/
lemma parseCore_data (l : List Char) :
    parseIso8601DurationCore (some ⟨l⟩) =
      (match l with
       | 'P' :: 'T' :: rest => some (isoCoreLoop rest 0 0 0 [])
       | _ => none) := rfl

/-- C7 amended: the two ISO-8601 duration parsers behave as follows.
The browse-side regex parser maps every `P[n]DT[n]H[n]M[n]S` string to
`days*86400 + hours*3600 + minutes*60 + seconds`.  The metadata-provider
parser (`core.py`) handles only strings starting with `PT`, mapping
`PT[n]H[n]M[n]S` to `hours*3600 + minutes*60 + seconds`, and returns
none — it never raises, both parsers being total — for any day-bearing
`P[n]D...` form and for any string not starting with `P`. -/
theorem iso_duration_parsers_behavior :
    (∀ dD dH dM dS : List Char,
      dD ≠ [] → dD.all isDigitChar = true →
      dH ≠ [] → dH.all isDigitChar = true →
      dM ≠ [] → dM.all isDigitChar = true →
      dS ≠ [] → dS.all isDigitChar = true →
      parseIso8601DurationBrowse
          ⟨'P' :: (dD ++ 'D' :: 'T' :: (dH ++ 'H' :: (dM ++ 'M' :: (dS ++ ['S']))))⟩
        = some (digitsVal dD * 86400 + digitsVal dH * 3600 +
                digitsVal dM * 60 + digitsVal dS)) ∧
    (∀ dH dM dS : List Char,
      dH ≠ [] → dH.all isDigitChar = true →
      dM ≠ [] → dM.all isDigitChar = true →
      dS ≠ [] → dS.all isDigitChar = true →
      parseIso8601DurationCore
          (some ⟨'P' :: 'T' :: (dH ++ 'H' :: (dM ++ 'M' :: (dS ++ ['S'])))⟩)
        = some (digitsVal dH * 3600 + digitsVal dM * 60 + digitsVal dS)) ∧
    (∀ dD rest, dD ≠ [] → dD.all isDigitChar = true →
      parseIso8601DurationCore (some ⟨'P' :: (dD ++ 'D' :: rest)⟩) = none) ∧
    (∀ s : String, (∀ cs, s.data ≠ 'P' :: cs) →
      parseIso8601DurationBrowse s = none ∧
      parseIso8601DurationCore (some s) = none) := by
  refine ⟨?_, ?_, ?_, ?_⟩
  · intro dD dH dM dS hD haD hH haH hM haM hS haS
    rw [parseBrowse_P]
    rw [show dS ++ ['S'] = dS ++ 'S' :: [] from rfl]
    simp only [isoComp_exact 'D' dD ('T' :: (dH ++ 'H' :: (dM ++ 'M' :: (dS ++ 'S' :: []))))
        hD haD not_digit_D,
      isoComp_exact 'H' dH (dM ++ 'M' :: (dS ++ 'S' :: [])) hH haH not_digit_H,
      isoComp_exact 'M' dM (dS ++ 'S' :: []) hM haM not_digit_M,
      isoComp_exact 'S' dS [] hS haS not_digit_S]
    simp
  · intro dH dM dS hH haH hM haM hS haS
    rw [show parseIso8601DurationCore
            (some ⟨'P' :: 'T' :: (dH ++ 'H' :: (dM ++ 'M' :: (dS ++ ['S'])))⟩)
          = some (isoCoreLoop (dH ++ 'H' :: (dM ++ 'M' :: (dS ++ ['S']))) 0 0 0 [])
        from rfl]
    rw [isoCoreLoop_digits dH _ 0 0 0 [] haH]
    simp only [List.nil_append]
    rw [isoCoreLoop_letter 'H' _ 0 0 0 dH not_digit_H (by simpa using hH)]
    simp only [if_pos rfl]
    rw [isoCoreLoop_digits dM _ _ 0 0 [] haM]
    simp only [List.nil_append]
    rw [isoCoreLoop_letter 'M' _ _ 0 0 dM not_digit_M (by simpa using hM)]
    rw [if_neg (show ¬('M' = 'H') by decide), if_pos (rfl : 'M' = 'M')]
    rw [show dS ++ ['S'] = dS ++ 'S' :: [] from rfl]
    rw [isoCoreLoop_digits dS _ _ _ 0 [] haS]
    simp only [List.nil_append]
    rw [isoCoreLoop_letter 'S' _ _ _ 0 dS not_digit_S (by simpa using hS),
      if_neg (show ¬('S' = 'H') by decide), if_neg (show ¬('S' = 'M') by decide),
      if_pos (rfl : 'S' = 'S')]
    simp [isoCoreLoop]
  · intro dD rest hD haD
    rw [parseCore_data]
    cases dD with
    | nil => exact absurd rfl hD
    | cons d dt =>
      simp only [List.all_cons, Bool.and_eq_true] at haD
      have hdT : d ≠ 'T' := by
        intro h
        rw [h] at haD
        exact absurd haD.1 (by decide)
      simp only [List.cons_append]
      split
      · rename_i heq
        exact absurd (List.cons.inj (List.cons.inj heq).2).1 hdT
      · rfl
  · intro s hs
    obtain ⟨l⟩ := s
    constructor
    · show parseIso8601DurationBrowse ⟨l⟩ = none
      unfold parseIso8601DurationBrowse
      split
      · rename_i heq
        exact absurd heq (hs _)
      · rfl
    · rw [parseCore_data]
      split
      · exact absurd rfl (hs _)
      · rfl

/-- Witness for `iso_duration_parsers_behavior` at concrete digit
strings: `P1DT2H3M4S` for the browse parser, `PT2H3M4S` for the core
parser, and the day-form rejection at `P1DX`. -/
theorem iso_duration_parsers_behavior_witness :
    parseIso8601DurationBrowse "P1DT2H3M4S" = some 93784 ∧
    parseIso8601DurationCore (some "PT2H3M4S") = some 7384 ∧
    parseIso8601DurationCore (some "P1DT2H3M4S") = none := by
  refine ⟨?_, ?_, ?_⟩
  · have h := iso_duration_parsers_behavior.1 ['1'] ['2'] ['3'] ['4']
      (by decide) (by decide) (by decide) (by decide)
      (by decide) (by decide) (by decide) (by decide)
    exact h
  · have h := iso_duration_parsers_behavior.2.1 ['2'] ['3'] ['4']
      (by decide) (by decide) (by decide) (by decide) (by decide) (by decide)
    exact h
  · have h := iso_duration_parsers_behavior.2.2.1 ['1'] "T2H3M4S".data
      (by decide) (by decide)
    exact h

/-! ### Prefetcher cycle lemmas (C5) -/

/-- The effect of one scan visit on an entry: a cache hit annotates the
path in place, otherwise the entry is untouched. -/
def entryAnnot (lookup : Option String → Option String → Option String)
    (e : PEntry) : PEntry :=
  match lookup e.id e.title with
  | some p => { e with path := some p }
  | none => e

/-- Whether the scan at index `i` goes to the orchestrator (entry in
bounds and cache lookup misses). -/
def needsFetch (lookup : Option String → Option String → Option String)
    (es : List PEntry) (i : Nat) : Bool :=
  match es[i]? with
  | some e => (lookup e.id e.title).isNone
  | none => false

/-- The indices scanned by one wake cycle:
`range(idx + 1, min(len, idx + 1 + n))`. -/
def prefetchWindow (len idx n : Nat) : List Nat :=
  List.range' (idx + 1) (min len (idx + 1 + n) - (idx + 1))

lemma entryAnnot_id (lookup : Option String → Option String → Option String)
    (e : PEntry) : (entryAnnot lookup e).id = e.id := by
  unfold entryAnnot
  split <;> rfl

lemma entryAnnot_title (lookup : Option String → Option String → Option String)
    (e : PEntry) : (entryAnnot lookup e).title = e.title := by
  unfold entryAnnot
  split <;> rfl

lemma entryAnnot_idem (lookup : Option String → Option String → Option String)
    (e : PEntry) : entryAnnot lookup (entryAnnot lookup e) = entryAnnot lookup e := by
  unfold entryAnnot
  rcases h : lookup e.id e.title with _ | p <;> simp [h]

/-- Entry view of one scan step. -/
lemma prefetchStep_fst_get (lookup : Option String → Option String → Option String)
    (fetch : Option String → Except Unit Unit)
    (es : List PEntry) (log : List (Nat × Except Unit Unit)) (i k : Nat) :
    ((prefetchStep lookup fetch (es, log) i).1)[k]? =
      if k = i then (es[k]?).map (entryAnnot lookup) else es[k]? := by
  have hlen : ∀ (e : PEntry), es[i]? = some e → i < es.length := by
    intro e he
    by_contra hge
    rw [List.getElem?_eq_none (Nat.le_of_not_lt hge)] at he
    exact Option.noConfusion he
  unfold prefetchStep
  rcases he : es[i]? with _ | e
  · by_cases h : k = i
    · subst h
      simp [he]
    · simp [he, h]
  · rcases hl : lookup e.id e.title with _ | p
    · by_cases h : k = i
      · subst h
        simp [he, hl, entryAnnot]
      · simp [he, hl, h]
    · by_cases h : k = i
      · subst h
        simp only [he, hl]
        rw [List.getElem?_set]
        simp [hlen e he, he, entryAnnot, hl]
      · simp only [he, hl]
        rw [List.getElem?_set_ne (fun hik => h hik.symm)]
        simp [h]

/-- Log view of one scan step. -/
lemma prefetchStep_snd (lookup : Option String → Option String → Option String)
    (fetch : Option String → Except Unit Unit)
    (es : List PEntry) (log : List (Nat × Except Unit Unit)) (i : Nat) :
    ((prefetchStep lookup fetch (es, log) i).2).map Prod.fst =
      log.map Prod.fst ++ (if needsFetch lookup es i then [i] else []) := by
  unfold prefetchStep needsFetch
  rcases he : es[i]? with _ | e
  · simp
  · rcases hl : lookup e.id e.title with _ | p <;> simp [hl]

/-- Folding the scan body over any index list: each visited in-bounds
index is annotated (idempotently), all others are untouched. -/
lemma pfold_get (lookup : Option String → Option String → Option String)
    (fetch : Option String → Except Unit Unit) (is : List Nat) :
    ∀ (es : List PEntry) (log : List (Nat × Except Unit Unit)) (j : Nat),
    ((is.foldl (prefetchStep lookup fetch) (es, log)).1)[j]? =
      if j ∈ is then (es[j]?).map (entryAnnot lookup) else es[j]? := by
  induction is with
  | nil => intro es log j; simp
  | cons i tl ih =>
    intro es log j
    rw [List.foldl_cons]
    rcases hstep : prefetchStep lookup fetch (es, log) i with ⟨es1, log1⟩
    have hes1 : ∀ k, es1[k]? =
        if k = i then (es[k]?).map (entryAnnot lookup) else es[k]? := by
      intro k
      have := prefetchStep_fst_get lookup fetch es log i k
      rw [hstep] at this
      exact this
    rw [ih es1 log1 j]
    by_cases hmem : j ∈ tl
    · simp only [hmem, if_pos, List.mem_cons, Or.inr hmem]
      rw [hes1 j]
      by_cases h : j = i
      · subst h
        rcases es[j]? with _ | e
        · simp
        · simp [entryAnnot_idem]
      · simp [h]
    · by_cases h : j = i
      · subst h
        simp [hmem, hes1]
      · simp [hmem, h, hes1]

/-- `needsFetch` is invariant under the path annotations a scan makes. -/
lemma needsFetch_step (lookup : Option String → Option String → Option String)
    (fetch : Option String → Except Unit Unit)
    (es : List PEntry) (log : List (Nat × Except Unit Unit)) (i : Nat) :
    needsFetch lookup (prefetchStep lookup fetch (es, log) i).1 =
      needsFetch lookup es := by
  funext k
  unfold needsFetch
  rw [prefetchStep_fst_get lookup fetch es log i k]
  by_cases h : k = i
  · subst h
    rcases es[k]? with _ | e
    · simp
    · simp [entryAnnot_id, entryAnnot_title]
  · simp [h]

/-- Folding the scan body over any index list: the fetch log collects
exactly the visited indices whose entry is in bounds and uncached. -/
lemma pfold_log (lookup : Option String → Option String → Option String)
    (fetch : Option String → Except Unit Unit) (is : List Nat) :
    ∀ (es : List PEntry) (log : List (Nat × Except Unit Unit)),
    ((is.foldl (prefetchStep lookup fetch) (es, log)).2).map Prod.fst =
      log.map Prod.fst ++ is.filter (needsFetch lookup es) := by
  induction is with
  | nil => intro es log; simp
  | cons i tl ih =>
    intro es log
    rw [List.foldl_cons]
    rcases hstep : prefetchStep lookup fetch (es, log) i with ⟨es1, log1⟩
    have hinv : needsFetch lookup es1 = needsFetch lookup es := by
      have := needsFetch_step lookup fetch es log i
      rw [hstep] at this
      exact this
    have hlog1 : log1.map Prod.fst =
        log.map Prod.fst ++ (if needsFetch lookup es i then [i] else []) := by
      have := prefetchStep_snd lookup fetch es log i
      rw [hstep] at this
      exact this
    rw [ih es1 log1, hinv, hlog1, List.filter_cons]
    rcases h : needsFetch lookup es i with _ | _
    · simp
    · simp

/-- The wake cycle is the fold of the scan body over the window. -/
lemma prefetchCycle_eq (entries : List PEntry) (idx n : Nat)
    (lookup : Option String → Option String → Option String)
    (fetch : Option String → Except Unit Unit) :
    prefetchCycle entries idx n lookup fetch =
      (prefetchWindow entries.length idx n).foldl (prefetchStep lookup fetch)
        (entries, []) := rfl

/-- C5: on one wake cycle with cursor `idx` and window size `n` over an
entry list, the Prefetcher scans exactly the indices in the open
half-interval `(idx, idx + n]` clipped to the list bounds; an entry the
cache lookup reports cached gets its path annotated in place and is not
fetched; an uncached entry is left unchanged and the orchestrator is
called for it, with its outcome — exception included — swallowed into
the log, so neither the resulting entries nor the set of fetched indices
depends on the fetch oracle, and no error propagates (the cycle is a
total function). -/
theorem prefetch_cycle_window_and_swallow
    (entries : List PEntry) (idx n : Nat)
    (lookup : Option String → Option String → Option String)
    (fetch : Option String → Except Unit Unit) :
    (∀ i, i ∈ prefetchWindow entries.length idx n ↔
        (idx < i ∧ i ≤ idx + n ∧ i < entries.length)) ∧
    (∀ j, j ∉ prefetchWindow entries.length idx n →
        (prefetchCycle entries idx n lookup fetch).1[j]? = entries[j]?) ∧
    (∀ j e p, j ∈ prefetchWindow entries.length idx n →
        entries[j]? = some e → lookup e.id e.title = some p →
        (prefetchCycle entries idx n lookup fetch).1[j]? =
            some { e with path := some p } ∧
        j ∉ ((prefetchCycle entries idx n lookup fetch).2.map Prod.fst)) ∧
    (∀ j e, j ∈ prefetchWindow entries.length idx n →
        entries[j]? = some e → lookup e.id e.title = none →
        (prefetchCycle entries idx n lookup fetch).1[j]? = some e ∧
        j ∈ ((prefetchCycle entries idx n lookup fetch).2.map Prod.fst)) ∧
    ((prefetchCycle entries idx n lookup fetch).2.map Prod.fst =
      (prefetchWindow entries.length idx n).filter (needsFetch lookup entries)) ∧
    (∀ fetch2,
      (prefetchCycle entries idx n lookup fetch2).1 =
        (prefetchCycle entries idx n lookup fetch).1 ∧
      (prefetchCycle entries idx n lookup fetch2).2.map Prod.fst =
        (prefetchCycle entries idx n lookup fetch).2.map Prod.fst) := by
  have hget : ∀ (f : Option String → Except Unit Unit) (j : Nat),
      (prefetchCycle entries idx n lookup f).1[j]? =
        if j ∈ prefetchWindow entries.length idx n
        then (entries[j]?).map (entryAnnot lookup) else entries[j]? := by
    intro f j
    rw [prefetchCycle_eq]
    exact pfold_get lookup f _ entries [] j
  have hlog : ∀ (f : Option String → Except Unit Unit),
      (prefetchCycle entries idx n lookup f).2.map Prod.fst =
        (prefetchWindow entries.length idx n).filter (needsFetch lookup entries) := by
    intro f
    rw [prefetchCycle_eq]
    simpa using pfold_log lookup f _ entries []
  refine ⟨?_, ?_, ?_, ?_, hlog fetch, ?_⟩
  · intro i
    unfold prefetchWindow
    rw [List.mem_range'_1]
    omega
  · intro j hj
    rw [hget fetch j, if_neg hj]
  · intro j e p hj he hl
    constructor
    · rw [hget fetch j, if_pos hj, he]
      simp [entryAnnot, hl]
    · rw [hlog fetch]
      intro hmem
      have := (List.mem_filter.mp hmem).2
      simp [needsFetch, he, hl] at this
  · intro j e hj he hl
    constructor
    · rw [hget fetch j, if_pos hj, he]
      simp [entryAnnot, hl]
    · rw [hlog fetch]
      refine List.mem_filter.mpr ⟨hj, ?_⟩
      simp [needsFetch, he, hl]
  · intro fetch2
    constructor
    · refine List.ext_getElem? ?_
      intro j
      rw [hget fetch j, hget fetch2 j]
    · rw [hlog fetch, hlog fetch2]

/-- Witness for `prefetch_cycle_window_and_swallow`, matching the
spec's scenario B: 10 entries, cursor 2, window 3 — exactly indices
3, 4, 5 are scanned; index 3 (mock-cached) is annotated with its path
and not fetched; index 4 (uncached) is fetched even though the fetch
oracle fails. -/
theorem prefetch_cycle_window_and_swallow_witness :
    (3 ∈ prefetchWindow 10 2 3 ∧ 4 ∈ prefetchWindow 10 2 3 ∧
      5 ∈ prefetchWindow 10 2 3 ∧ 6 ∉ prefetchWindow 10 2 3 ∧
      2 ∉ prefetchWindow 10 2 3) ∧
    (prefetchCycle (List.replicate 10 { id := some "v" })
        2 3 (fun i _ => if i = some "v" then some "hit.mp3" else none)
        (fun _ => .error ()) ).1[3]? =
      some { id := some "v", path := some "hit.mp3" } := by
  constructor
  · refine ⟨?_, ?_, ?_, ?_, ?_⟩ <;>
      first
        | exact ((prefetch_cycle_window_and_swallow (List.replicate 10 { id := some "v" })
            2 3 (fun _ _ => none) (fun _ => .error ())).1 _).mpr (by simp)
        | exact fun hmem =>
            absurd (((prefetch_cycle_window_and_swallow
                (List.replicate 10 { id := some "v" })
                2 3 (fun _ _ => none) (fun _ => .error ())).1 _).mp hmem) (by simp)
  · exact ((prefetch_cycle_window_and_swallow (List.replicate 10 { id := some "v" })
        2 3 (fun i _ => if i = some "v" then some "hit.mp3" else none)
        (fun _ => .error ())).2.2.1 3 { id := some "v" } "hit.mp3"
        (by decide) (by simp [List.getElem?_replicate]) (by decide)).1

/-! ### Playback state discipline lemmas (C8) -/

lemma playerStop_trace_of_playing (ps : PlayerSt) (q : String)
    (h : ps.playing = some q) : playerStop ps = (⟨none⟩, [.stop]) := by
  unfold playerStop
  rw [h]

lemma playerStop_trace_of_idle (ps : PlayerSt) (h : ps.playing = none) :
    playerStop ps = (ps, []) := by
  unfold playerStop
  rw [h]

/-- Behaviour of `EnhancedPlayer.play` when the file exists: the
reported flag is the spawn outcome; on success the started file is the
playing one and a start event is traced after any stop; on failure the
player ends idle with no start event. -/
lemma playerPlay_spec (useMpv : Bool) (ps : PlayerSt) (fe : String → Bool)
    (startOk : Bool) (p : String) (hfe : fe p = true) :
    (playerPlay useMpv ps fe startOk p).2.2 = startOk ∧
    (startOk = true →
      (playerPlay useMpv ps fe startOk p).1.playing = some p ∧
      (playerPlay useMpv ps fe startOk p).2.1 = (playerStop ps).2 ++ [.start p]) ∧
    (startOk = false →
      (playerPlay useMpv ps fe startOk p).1.playing = none ∧
      (playerPlay useMpv ps fe startOk p).2.1 = (playerStop ps).2) := by
  unfold playerPlay
  rcases useMpv <;> rcases startOk <;> simp [hfe]

/-- The resolution prefix of `play_item` never touches the playing
index or the playing-file marker. -/
lemma playItemResolve_preserves (st : BrowseState) (item : BItem) (idx : Nat)
    (ro : Except Unit String) (enrich : BItem → BItem) :
    (playItemResolve st item idx ro enrich).1.currentPlayingIdx
        = st.currentPlayingIdx ∧
    (playItemResolve st item idx ro enrich).1.currentlyPlayingFile
        = st.currentlyPlayingFile := by
  unfold playItemResolve
  repeat' split
  all_goals exact ⟨rfl, rfl⟩

/-- C8: `play_item(idx)` updates `current_playing_idx` and the
playing-file marker only when the new playback actually started:
either both are untouched (out-of-range index, no resolvable path,
resolve exception, or missing file — with the player untouched and no
events), or the start succeeded and they point at the new index and
path (with the player playing that path), or the player reported start
failure and both are cleared to none, never left stale, with the player
stopped; and whenever a start event occurs while something was playing,
a stop event precedes it at the head of the trace. -/
theorem play_item_state_discipline (st : BrowseState) (ps : PlayerSt) (idx : Nat)
    (ro : Except Unit String) (enrich : BItem → BItem)
    (fe : String → Bool) (useMpv startOk : Bool) :
    (((playItem st ps idx ro enrich fe useMpv startOk).1.currentPlayingIdx
          = st.currentPlayingIdx ∧
      (playItem st ps idx ro enrich fe useMpv startOk).1.currentlyPlayingFile
          = st.currentlyPlayingFile ∧
      (playItem st ps idx ro enrich fe useMpv startOk).2.1 = ps ∧
      (playItem st ps idx ro enrich fe useMpv startOk).2.2 = []) ∨
     (startOk = true ∧ ∃ p,
      (playItem st ps idx ro enrich fe useMpv startOk).1.currentPlayingIdx
          = some idx ∧
      (playItem st ps idx ro enrich fe useMpv startOk).1.currentlyPlayingFile
          = some p ∧
      (playItem st ps idx ro enrich fe useMpv startOk).2.1.playing = some p) ∨
     (startOk = false ∧
      (playItem st ps idx ro enrich fe useMpv startOk).1.currentPlayingIdx
          = none ∧
      (playItem st ps idx ro enrich fe useMpv startOk).1.currentlyPlayingFile
          = none ∧
      (playItem st ps idx ro enrich fe useMpv startOk).2.1.playing = none)) ∧
    (∀ q p, ps.playing = some q →
      PEvent.start p ∈ (playItem st ps idx ro enrich fe useMpv startOk).2.2 →
      ((playItem st ps idx ro enrich fe useMpv startOk).2.2).head?
        = some PEvent.stop) := by
  unfold playItem
  split
  · exact ⟨Or.inl ⟨rfl, rfl, rfl, rfl⟩, fun q p _ hmem => absurd hmem (by simp)⟩
  · split
    · exact ⟨Or.inl ⟨rfl, rfl, rfl, rfl⟩, fun q p _ hmem => absurd hmem (by simp)⟩
    · rename_i item _
      rcases hres : playItemResolve st item idx ro enrich with ⟨st1, pathOpt⟩
      have hpres := playItemResolve_preserves st item idx ro enrich
      rw [hres] at hpres
      dsimp only at hpres
      dsimp only
      rcases pathOpt with _ | p
      · exact ⟨Or.inl ⟨hpres.1, hpres.2, rfl, rfl⟩,
          fun q pp _ hmem => absurd hmem (by simp)⟩
      · by_cases hfe : fe p = true
        · have hplay := playerPlay_spec useMpv ps fe startOk p hfe
          rcases startOk with _ | _
          · simp only [hfe, hplay.1, Bool.false_eq_true, reduceIte, if_false]
            refine ⟨Or.inr (Or.inr ⟨trivial, ?_, ?_, (hplay.2.2 rfl).1⟩), ?_⟩
            case _ => trivial
            case _ => trivial
            intro q pp hq hmem
            rw [(hplay.2.2 rfl).2] at hmem ⊢
            rw [playerStop_trace_of_playing ps q hq] at hmem
            simp at hmem
          · simp only [hfe, hplay.1, reduceIte]
            refine ⟨Or.inr (Or.inl ⟨trivial, p, ?_, ?_, (hplay.2.1 rfl).1⟩), ?_⟩
            case _ => trivial
            case _ => trivial
            intro q pp hq hmem
            rw [(hplay.2.1 rfl).2] at hmem ⊢
            rw [playerStop_trace_of_playing ps q hq]
            rfl
        · simp only [Bool.not_eq_true] at hfe
          simp only [hfe, reduceIte]
          exact ⟨Or.inl ⟨hpres.1, hpres.2, rfl, rfl⟩,
            fun q pp _ hmem => absurd hmem (by simp)⟩

/-- Witness for `play_item_state_discipline`: a one-item library whose
item is cached, a player already playing another file, and a successful
spawn — the index and marker move to the new item and the trace is
`[stop, start]`. -/
theorem play_item_state_discipline_witness :
    (playItem
        { mode := .library, libraryTracks := [{ path := some "a.mp3" }],
          currentItems := [{ path := some "a.mp3" }], selection := 0, offset := 0,
          currentPlayingIdx := none, currentAlbumPath := none,
          currentlyPlayingFile := none }
        ⟨some "old.mp3"⟩ 0 (.ok "x") id (fun _ => true) true true).2.2.head?
      = some PEvent.stop :=
  (play_item_state_discipline
      { mode := .library, libraryTracks := [{ path := some "a.mp3" }],
        currentItems := [{ path := some "a.mp3" }], selection := 0, offset := 0,
        currentPlayingIdx := none, currentAlbumPath := none,
        currentlyPlayingFile := none }
      ⟨some "old.mp3"⟩ 0 (.ok "x") id (fun _ => true) true true).2
    "old.mp3" "a.mp3" rfl (by decide)

/-! ### Metadata-failure semantics of the orchestration (C4) -/

/-- The cache holds a track directory of the given name containing the
given file. -/
def dirHasFile (c : Cache) (td fname : String) : Prop :=
  ∃ d, FsEntry.dir d ∈ c ∧ d.name = td ∧ fname ∈ d.files

lemma exists_dir_ensureTrackDir (c : Cache) (td : String) :
    ∃ d, FsEntry.dir d ∈ ensureTrackDir c td ∧ d.name = td := by
  unfold ensureTrackDir
  split
  · rename_i h
    obtain ⟨e, hmem, he⟩ := List.any_eq_true.mp h
    rcases e with d | n
    · exact ⟨d, hmem, by simpa using he⟩
    · simp at he
  · exact ⟨⟨td, none, []⟩, List.mem_append_right _ (by simp), rfl⟩

lemma dirHasFile_addFileToDir (c : Cache) (td fname : String)
    (h : ∃ d, FsEntry.dir d ∈ c ∧ d.name = td) :
    dirHasFile (addFileToDir c td fname) td fname := by
  obtain ⟨d, hmem, hname⟩ := h
  refine ⟨{ d with files := if d.files.contains fname then d.files
                            else d.files ++ [fname] }, ?_, hname, ?_⟩
  · unfold addFileToDir
    refine List.mem_map.mpr ⟨.dir d, hmem, ?_⟩
    simp [hname]
  · by_cases hc : d.files.contains fname
    · simp only [hc, if_pos]
      simpa using hc
    · have hc2 : fname ∉ d.files := by simpa using hc
      simp [hc2]

lemma dirHasFile_writeFlatFile (c : Cache) (td fname n : String)
    (h : dirHasFile c td fname) : dirHasFile (writeFlatFile c n) td fname := by
  obtain ⟨d, hmem, hname, hf⟩ := h
  unfold writeFlatFile
  split
  · exact ⟨d, hmem, hname, hf⟩
  · exact ⟨d, List.mem_append_left _ hmem, hname, hf⟩

lemma dirHasFile_writeDirMeta (c : Cache) (td fname td2 : String) (m : SMeta)
    (h : dirHasFile c td fname) : dirHasFile (writeDirMeta c td2 m) td fname := by
  obtain ⟨d, hmem, hname, hf⟩ := h
  unfold writeDirMeta
  split
  · by_cases hd : d.name = td2
    · exact ⟨{ d with meta := some (some m) },
        List.mem_map.mpr ⟨.dir d, hmem, by simp [hd]⟩, hname, hf⟩
    · exact ⟨d, List.mem_map.mpr ⟨.dir d, hmem, by simp [hd]⟩, hname, hf⟩
  · exact ⟨d, List.mem_append_left _ hmem, hname, hf⟩

lemma dirHasFile_saveSidecar (c : Cache) (td fname : String) (m : SMeta)
    (tdOpt : Option String) (h : dirHasFile c td fname) :
    dirHasFile (saveSidecar c m tdOpt) td fname := by
  unfold saveSidecar
  split
  · exact h
  · rcases tdOpt with _ | td2
    · exact dirHasFile_writeFlatFile _ _ _ _ h
    · exact dirHasFile_writeDirMeta _ _ _ _ _ (dirHasFile_writeFlatFile _ _ _ _ h)

/-- C4 counterexample: the claim says a metadata-fetch failure does not
abort `resolve_and_maybe_download` and a download is still attempted;
in fact the fetch is performed with no surrounding handler, so a network
error propagates out of `resolve_and_maybe_download` and the download
path is never invoked. -/
theorem resolve_metadata_failure_counterexample :
    (resolveAndMaybeDownload [] "https://youtu.be/abcdefghijk" true
        (fun _ => .error (.urlError "timeout")) { ext := "mp3" }).1
      = .error (.exc (.urlError "timeout")) ∧
    (resolveAndMaybeDownload [] "https://youtu.be/abcdefghijk" true
        (fun _ => .error (.urlError "timeout")) { ext := "mp3" }).2 = false :=
  ⟨rfl, rfl⟩

/-- C4 amended: `resolve_and_maybe_download` itself propagates any
metadata-fetch failure to its caller without attempting a download; the
graceful degradation lives one level down, in `download_audio`, and only
for ordinary exceptions: there a network/API error during its metadata
fetch falls back to the identifier parsed from the URL and the download
is still performed, producing the audio artifact in the
identifier-named track directory. -/
theorem metadata_failure_degrades_in_download_audio :
    (∀ (c : Cache) (ref : String) (e : PyExc)
        (api : String → Except NetErr (Option ApiVideo)) (dl : DlReport),
      isUrl ref = true → videoInfoFromUrl ref true api = .error e →
      resolveAndMaybeDownload c ref true api dl = (.error e, false)) ∧
    (∀ (c : Cache) (url v : String) (err : NetErr) (dl : DlReport),
      extractVideoId url = some v →
      ∃ c2, downloadAudio c url true (fun _ => .error err) dl
          = .ok (c2, trackDirName none (some v) ++ "/" ++ ("audio." ++ dl.ext)) ∧
        dirHasFile c2 (trackDirName none (some v)) ("audio." ++ dl.ext)) := by
  constructor
  · intro c ref e api dl hurl hfetch
    unfold resolveAndMaybeDownload
    rw [hurl, hfetch]
    rfl
  · intro c url v err dl hvid
    have hfetch : videoInfoFromUrl url true (fun _ => .error err) = .error (.exc err) := by
      unfold videoInfoFromUrl ytApiVideoInfo
      rw [hvid]
      rfl
    refine ⟨saveSidecar
        (addFileToDir (ensureTrackDir c (trackDirName none (some v)))
          (trackDirName none (some v)) ("audio." ++ dl.ext))
        { id := pyOrS dl.id (pyOrS (some v) (extractVideoId url)),
          title := pyOrS none (pyOrS dl.title (pyOrS dl.id (pyOrS (some v) (extractVideoId url)))),
          uploader := pyOrS none dl.uploader,
          duration := pyOrN none dl.duration,
          webpageUrl := pyOrS dl.webpageUrl (some url) }
        (some (trackDirName none (some v))), ?_, ?_⟩
    · unfold downloadAudio
      rw [hfetch, hvid]
      rfl
    · exact dirHasFile_saveSidecar _ _ _ _ _
        (dirHasFile_addFileToDir _ _ _ (exists_dir_ensureTrackDir c _))

/-- Witness for `metadata_failure_degrades_in_download_audio`: on an
empty cache with an all-failing metadata API, the resolve call aborts
with the network error and no download flag, while `download_audio` on
the same URL still produces `abcdefghijk [abcdefgh]/audio.mp3`. -/
theorem metadata_failure_degrades_witness :
    resolveAndMaybeDownload [] "https://youtu.be/abcdefghijk" true
        (fun _ => .error (.urlError "down")) { ext := "mp3" }
      = (.error (.exc (.urlError "down")), false) ∧
    ∃ c2, downloadAudio [] "https://youtu.be/abcdefghijk" true
        (fun _ => .error (.urlError "down")) { ext := "mp3" }
        = .ok (c2, "abcdefghijk [abcdefgh]" ++ "/" ++ "audio.mp3") ∧
      dirHasFile c2 "abcdefghijk [abcdefgh]" "audio.mp3" := by
  constructor
  · exact metadata_failure_degrades_in_download_audio.1 [] _ _ _ _ (by decide) rfl
  · have h := metadata_failure_degrades_in_download_audio.2 []
      "https://youtu.be/abcdefghijk" "abcdefghijk" (.urlError "down") { ext := "mp3" }
      (by decide)
    simpa using h

/-! ### Resolve-twice infrastructure (C1) -/

/-- The per-listing-entry view of tier 0: the contribution one cache
root entry makes to the per-track-directory scan. -/
def perEntry (v : String) : FsEntry → Option String
  | .dir d =>
    match d.meta with
    | some (some m) => if m.id = some v then firstAudioInDir d else none
    | _ => none
  | .flat _ => none

lemma findPerTrack_eq (c : Cache) (v : String) :
    findPerTrack c v = c.findSome? (perEntry v) := by
  unfold findPerTrack iterTrackDirs
  induction c with
  | nil => rfl
  | cons e tl ih =>
    rcases e with d | n
    · rcases hd : d.meta with _ | om
      · simpa [List.filterMap_cons, hd, List.findSome?_cons, perEntry] using ih
      · simp only [List.filterMap_cons, hd, Option.isSome_some, if_pos,
          List.findSome?_cons, perEntry]
        rcases om with _ | m
        · simpa using ih
        · rcases hid : decide (m.id = some v) with _ | _
          · simp only [hd]
            simpa [of_decide_eq_false hid] using ih
          · simp only [hd, of_decide_eq_true hid, if_pos]
            rw [ih]
    · simpa [List.filterMap_cons, List.findSome?_cons, perEntry] using ih

lemma findSome?_all_none_or {α β : Type} (l : List α) (f : α → Option β) (b : β)
    (hall : ∀ x ∈ l, f x = none ∨ f x = some b)
    (hex : ∃ x ∈ l, f x = some b) : l.findSome? f = some b := by
  induction l with
  | nil => obtain ⟨x, hx, _⟩ := hex; exact absurd hx (by simp)
  | cons a tl ih =>
    rw [List.findSome?_cons]
    rcases hall a (by simp) with ha | ha
    · rw [ha]
      obtain ⟨x, hx, hfx⟩ := hex
      rcases List.mem_cons.mp hx with hxa | hxtl
      · subst hxa
        exact absurd hfx (by simp [ha])
      · exact ih (fun y hy => hall y (List.mem_cons_of_mem a hy)) ⟨x, hxtl, hfx⟩
    · rw [ha]

/-- Shape of a successful single-position match: the captured group is
11 characters of the id class. -/
lemma matchIdAt_shape (cs : List Char) (w : String)
    (h : matchIdAt cs = some w) :
    w.data.length = 11 ∧ w.data.all isIdChar = true := by
  have tailShape : ∀ (rest : List Char),
      ((if ((rest.take 11).all isIdChar && decide ((rest.take 11).length = 11)) = true then
          match rest.drop 11 with
          | [] => some (⟨rest.take 11⟩ : String)
          | c :: _ => if isIdChar c = true then none
                      else some (⟨rest.take 11⟩ : String)
        else none) = some w) →
      w.data.length = 11 ∧ w.data.all isIdChar = true := by
    intro rest h2
    split at h2
    · rename_i hcond
      have hc1 := Bool.and_eq_true_iff.mp hcond
      split at h2
      · obtain rfl := Option.some.inj h2
        exact ⟨of_decide_eq_true hc1.2, hc1.1⟩
      · split at h2
        · exact absurd h2 (by simp)
        · obtain rfl := Option.some.inj h2
          exact ⟨of_decide_eq_true hc1.2, hc1.1⟩
    · exact absurd h2 (by simp)
  unfold matchIdAt at h
  split at h
  · exact tailShape _ h
  · exact tailShape _ h
  · exact absurd h (by simp)

/-- A successful id extraction always yields an 11-character token of
the id character class. -/
lemma extractVideoId_shape (s : String) (v : String)
    (h : extractVideoId s = some v) :
    v.data.length = 11 ∧ v.data.all isIdChar = true := by
  unfold extractVideoId at h
  split at h
  · exact absurd h (by simp)
  · revert h
    generalize s.data = cs
    intro h
    induction cs with
    | nil => exact absurd h (by simp [extractIdScan])
    | cons a tl ih =>
      rw [extractIdScan] at h
      rcases hm : matchIdAt (a :: tl) with _ | w
      · rw [hm] at h
        exact ih h
      · rw [hm] at h
        obtain rfl : w = v := by simpa using h
        exact matchIdAt_shape (a :: tl) _ hm

lemma extractVideoId_ne_empty (s v : String) (h : extractVideoId s = some v) :
    v ≠ "" := by
  intro hv
  have := (extractVideoId_shape s v h).1
  rw [hv] at this
  simp at this

/-- Scanning skips a position where the pattern fails to match. -/
lemma extractIdScan_cons_none (a : Char) (tl : List Char)
    (h : matchIdAt (a :: tl) = none) :
    extractIdScan (a :: tl) = extractIdScan tl := by
  rw [extractIdScan, h]

/-- The watch URL built by the API client round-trips through
`extract_video_id` for every well-formed 11-character id. -/
lemma extractVideoId_watchUrl (cs : List Char) (hlen : cs.length = 11)
    (hall : cs.all isIdChar = true) :
    extractVideoId (watchUrl ⟨cs⟩) = some ⟨cs⟩ := by
  have hdata : (watchUrl ⟨cs⟩).data
      = "https://www.youtube.com/watch?v=".data ++ cs := rfl
  have hne : watchUrl ⟨cs⟩ ≠ "" := by
    intro h
    have : (watchUrl ⟨cs⟩).data = [] := by rw [h]
    rw [hdata] at this
    exact absurd this (by simp)
  have htake : cs.take 11 = cs := by
    rw [← hlen]
    exact List.take_length cs
  have hdrop : cs.drop 11 = [] := by
    rw [← hlen]
    exact List.drop_length cs
  have hm : matchIdAt ('v' :: '=' :: cs) = some ⟨cs⟩ := by
    have hred : matchIdAt ('v' :: '=' :: cs)
        = (if ((cs.take 11).all isIdChar && decide ((cs.take 11).length = 11)) = true then
            match cs.drop 11 with
            | [] => some (⟨cs.take 11⟩ : String)
            | c :: _ => if isIdChar c = true then none
                        else some (⟨cs.take 11⟩ : String)
          else none) := rfl
    rw [hred, htake, hdrop, hall, hlen]
    simp
  unfold extractVideoId
  rw [if_neg hne, hdata]
  have hskip : extractIdScan ("https://www.youtube.com/watch?v=".data ++ cs)
      = extractIdScan ('v' :: '=' :: cs) := rfl
  rw [hskip, extractIdScan, hm]

/-- The `VInfo` that `video_info_from_url` produces from a successful
API response. -/
def mkInfo (v : String) (av : ApiVideo) : VInfo :=
  { id := v, title := (pyOrS av.title (some v)).getD v, uploader := av.uploader,
    duration := parseIso8601DurationCore av.durationIso, webpageUrl := watchUrl v }

/-- The provisional sidecar record `resolve_and_maybe_download` saves. -/
def metaOfInfo (i : VInfo) : SMeta :=
  { id := some i.id, title := some i.title, uploader := i.uploader,
    duration := i.duration, webpageUrl := some i.webpageUrl }

lemma videoInfoFromUrl_ok (url v : String) (av : ApiVideo)
    (api : String → Except NetErr (Option ApiVideo))
    (hvid : extractVideoId url = some v) (hapi : api v = .ok (some av)) :
    videoInfoFromUrl url true api = .ok (mkInfo v av) := by
  unfold videoInfoFromUrl ytApiVideoInfo mkInfo
  simp only [hvid, hapi]
  rfl

/-- Evaluation of the orchestrator once the URL check and metadata
fetch are settled. -/
lemma resolve_compute (c : Cache) (ref : String)
    (api : String → Except NetErr (Option ApiVideo)) (dl : DlReport)
    (v : String) (av : ApiVideo)
    (hurl : isUrl ref = true) (hvid : extractVideoId ref = some v)
    (hapi : api v = .ok (some av)) :
    resolveAndMaybeDownload c ref true api dl =
      match findExisting c (some v) (some (mkInfo v av).title) with
      | some p => (.ok (c, p), false)
      | none =>
        match downloadAudio (saveSidecar c (metaOfInfo (mkInfo v av)) none)
            (watchUrl v) true api dl with
        | .error e => (.error e, true)
        | .ok (c2, p) => (.ok (c2, p), true) := by
  unfold resolveAndMaybeDownload
  rw [hurl, videoInfoFromUrl_ok ref v av api hvid hapi]
  rfl

/-- Evaluation of `download_audio` once the metadata fetch is settled. -/
lemma downloadAudio_compute (c : Cache) (url : String)
    (api : String → Except NetErr (Option ApiVideo)) (dl : DlReport)
    (v : String) (av : ApiVideo)
    (hvid : extractVideoId url = some v) (hapi : api v = .ok (some av)) :
    downloadAudio c url true api dl =
      .ok (saveSidecar
            (addFileToDir
              (ensureTrackDir c (trackDirName (some (mkInfo v av).title) (some v)))
              (trackDirName (some (mkInfo v av).title) (some v)) ("audio." ++ dl.ext))
            { id := pyOrS dl.id (pyOrS (some v) (extractVideoId url)),
              title := pyOrS (some (mkInfo v av).title)
                (pyOrS dl.title (pyOrS dl.id (pyOrS (some v) (extractVideoId url)))),
              uploader := pyOrS (mkInfo v av).uploader dl.uploader,
              duration := pyOrN (mkInfo v av).duration dl.duration,
              webpageUrl := pyOrS dl.webpageUrl (some url) }
            (some (trackDirName (some (mkInfo v av).title) (some v))),
          trackDirName (some (mkInfo v av).title) (some v) ++ "/" ++ ("audio." ++ dl.ext)) := by
  unfold downloadAudio
  rw [videoInfoFromUrl_ok url v av api hvid hapi]
  rfl

lemma saveSidecar_truthy_none (c : Cache) (m : SMeta) (v : String)
    (hm : m.id = some v) (hv : v ≠ "") :
    saveSidecar c m none = writeFlatFile c (v ++ ".json") := by
  unfold saveSidecar
  rw [hm]
  simp [truthyStr, hv]

lemma saveSidecar_truthy_some (c : Cache) (m : SMeta) (v td : String)
    (hm : m.id = some v) (hv : v ≠ "") :
    saveSidecar c m (some td) = writeDirMeta (writeFlatFile c (v ++ ".json")) td m := by
  unfold saveSidecar
  rw [hm]
  simp [truthyStr, hv]

/-- After the downloader adds `audio.<ext>` to a directory that held no
audio file, that file is the directory's (unique) first audio. -/
lemma find?_audio_updated (files : List String) (an : String)
    (han : knownExts.contains (extOf an) = true)
    (hstray : files.find? (fun f => knownExts.contains (extOf f)) = none) :
    (if files.contains an then files else files ++ [an]).find?
      (fun f => knownExts.contains (extOf f)) = some an := by
  by_cases hc : files.contains an
  · exfalso
    have hmem : an ∈ files := by simpa using hc
    have := List.find?_eq_none.mp hstray an hmem
    exact this han
  · rw [if_neg hc, List.find?_append, hstray]
    simp only [List.find?_cons, han, Option.none_or]

lemma map_congr_mem {α β : Type} (l : List α) (f g : α → β)
    (h : ∀ a ∈ l, f a = g a) : l.map f = l.map g := by
  induction l with
  | nil => rfl
  | cons a tl ih =>
    simp only [List.map_cons, h a (by simp),
      ih (fun x hx => h x (List.mem_cons_of_mem a hx))]

/-- The per-entry action of `addFileToDir`. -/
def gAddF (td an : String) : FsEntry → FsEntry
  | .dir d =>
    if d.name = td then
      .dir { d with files := if d.files.contains an then d.files
                             else d.files ++ [an] }
    else .dir d
  | .flat f => .flat f

/-- The per-entry action of `writeDirMeta`'s update branch. -/
def gMetaF (td : String) (m : SMeta) : FsEntry → FsEntry
  | .dir d => if d.name = td then .dir { d with meta := some (some m) } else .dir d
  | .flat f => .flat f

lemma addFileToDir_eq_map (c : Cache) (td an : String) :
    addFileToDir c td an = c.map (gAddF td an) := by
  unfold addFileToDir
  exact map_congr_mem c _ _ (fun e _ => by cases e <;> rfl)

lemma writeDirMeta_eq_map (c : Cache) (td : String) (m : SMeta)
    (h : ∃ d, FsEntry.dir d ∈ c ∧ d.name = td) :
    writeDirMeta c td m = c.map (gMetaF td m) := by
  obtain ⟨d, hmem, hname⟩ := h
  unfold writeDirMeta
  rw [if_pos (List.any_eq_true.mpr ⟨.dir d, hmem, by simp [hname]⟩)]
  exact map_congr_mem c _ _ (fun e _ => by cases e <;> rfl)

/-- Value of tier 0 at a track directory that passed through the
download-then-write-meta pipeline: it now yields the new audio file. -/
lemma pipe_val_dir_td (v td an : String) (m : SMeta) (d : CDir)
    (hdn : d.name = td) (hm : m.id = some v)
    (han : knownExts.contains (extOf an) = true)
    (hstray : d.files.find? (fun f => knownExts.contains (extOf f)) = none) :
    perEntry v (gMetaF td m (gAddF td an (.dir d))) = some (td ++ "/" ++ an) := by
  simp only [gAddF]
  rw [if_pos hdn]
  simp only [gMetaF]
  rw [if_pos (show CDir.name { d with files := if d.files.contains an then d.files
      else d.files ++ [an] } = td from hdn)]
  simp only [perEntry]
  rw [if_pos hm]
  simp only [firstAudioInDir]
  rw [find?_audio_updated d.files an han hstray]
  simp [hdn]

lemma pipe_val_dir_ne (v td an : String) (m : SMeta) (d : CDir)
    (hdn : ¬ d.name = td) :
    perEntry v (gMetaF td m (gAddF td an (.dir d))) = perEntry v (.dir d) := by
  simp only [gAddF]
  rw [if_neg hdn]
  simp only [gMetaF]
  rw [if_neg hdn]

lemma mem_writeFlatFile_elim (X : Cache) (n : String) (e : FsEntry)
    (he : e ∈ writeFlatFile X n) : e ∈ X ∨ e = .flat n := by
  unfold writeFlatFile at he
  split at he
  · exact Or.inl he
  · rcases List.mem_append.mp he with h | h
    · exact Or.inl h
    · exact Or.inr (by simpa using h)

lemma mem_writeFlatFile_intro (X : Cache) (n : String) (e : FsEntry)
    (he : e ∈ X) : e ∈ writeFlatFile X n := by
  unfold writeFlatFile
  split
  · exact he
  · exact List.mem_append_left _ he

lemma mem_ensureTrackDir_elim (X : Cache) (td : String) (e : FsEntry)
    (he : e ∈ ensureTrackDir X td) : e ∈ X ∨ e = .dir ⟨td, none, []⟩ := by
  unfold ensureTrackDir at he
  split at he
  · exact Or.inl he
  · rcases List.mem_append.mp he with h | h
    · exact Or.inl h
    · exact Or.inr (by simpa using h)

/-- The write pipeline performed by a download (flat sidecar, track
directory creation, audio file, flat sidecar, `meta.json`) makes tier 0
of `find_existing` yield the just-written audio path, provided tier 0
previously found nothing and no matching directory held a stray audio
file. -/
lemma findPerTrack_pipeline (c : Cache) (v td an n1 n2 : String) (m : SMeta)
    (hm : m.id = some v)
    (hPT : findPerTrack c v = none)
    (han : knownExts.contains (extOf an) = true)
    (hstray : ∀ d, FsEntry.dir d ∈ c → d.name = td →
      d.files.find? (fun f => knownExts.contains (extOf f)) = none) :
    findPerTrack
      (writeDirMeta (writeFlatFile
        (addFileToDir (ensureTrackDir (writeFlatFile c n1) td) td an) n2) td m) v
      = some (td ++ "/" ++ an) := by
  have hPTnone : ∀ e ∈ c, perEntry v e = none := by
    rw [findPerTrack_eq] at hPT
    exact fun e he => List.findSome?_eq_none_iff.mp hPT e he
  obtain ⟨d0, hd0mem, hd0name⟩ := exists_dir_ensureTrackDir (writeFlatFile c n1) td
  have hd0stray : d0.files.find? (fun f => knownExts.contains (extOf f)) = none := by
    rcases mem_ensureTrackDir_elim _ td _ hd0mem with hA | hnew
    · rcases mem_writeFlatFile_elim c n1 _ hA with hc | hflat
      · exact hstray d0 hc hd0name
      · simp at hflat
    · injection hnew with h
      subst h
      rfl
  rw [addFileToDir_eq_map]
  have hgA : gAddF td an (.dir d0)
      = FsEntry.dir { d0 with files := if d0.files.contains an then d0.files
                                       else d0.files ++ [an] } := by
    simp only [gAddF]
    rw [if_pos hd0name]
  have hd0D : gAddF td an (.dir d0)
      ∈ writeFlatFile ((ensureTrackDir (writeFlatFile c n1) td).map (gAddF td an)) n2 :=
    mem_writeFlatFile_intro _ _ _ (List.mem_map.mpr ⟨.dir d0, hd0mem, rfl⟩)
  have hd0D' := hd0D
  rw [hgA] at hd0D'
  rw [writeDirMeta_eq_map _ td m ⟨_, hd0D', hd0name⟩]
  rw [findPerTrack_eq, List.findSome?_map]
  apply findSome?_all_none_or
  · intro e he
    rcases mem_writeFlatFile_elim _ n2 e he with heC | rfl
    · obtain ⟨e1, he1, rfl⟩ := List.mem_map.mp heC
      rcases mem_ensureTrackDir_elim _ td e1 he1 with he1A | rfl
      · rcases mem_writeFlatFile_elim c n1 e1 he1A with he1c | rfl
        · rcases e1 with d | f
          · by_cases hd : d.name = td
            · exact Or.inr (pipe_val_dir_td v td an m d hd hm han (hstray d he1c hd))
            · refine Or.inl ?_
              show perEntry v (gMetaF td m (gAddF td an (.dir d))) = none
              rw [pipe_val_dir_ne v td an m d hd]
              exact hPTnone _ he1c
          · exact Or.inl rfl
        · exact Or.inl rfl
      · exact Or.inr (pipe_val_dir_td v td an m ⟨td, none, []⟩ rfl hm han rfl)
    · exact Or.inl rfl
  · exact ⟨gAddF td an (.dir d0), hd0D,
      pipe_val_dir_td v td an m d0 hd0name hm han hd0stray⟩

lemma findExisting_of_perTrack (c : Cache) (v : String) (t : Option String)
    (p : String) (hv : v ≠ "") (hfp : findPerTrack c v = some p) :
    findExisting c (some v) t = some p := by
  unfold findExisting
  rw [show truthyStr (some v) = some v from by simp [truthyStr, hv]]
  simp only [hfp]

lemma findPerTrack_none_of_findExisting_none (c : Cache) (v : String)
    (t : Option String) (hv : v ≠ "")
    (hfe : findExisting c (some v) t = none) :
    findPerTrack c v = none := by
  rcases h : findPerTrack c v with _ | p
  · rfl
  · rw [findExisting_of_perTrack c v t p hv h] at hfe
    exact absurd hfe (by simp)

/-- The sidecar record `download_audio` writes (spelled out from the
source's `or`-chains). -/
def dlMeta (url v : String) (av : ApiVideo) (dl : DlReport) : SMeta :=
  { id := pyOrS dl.id (pyOrS (some v) (extractVideoId url)),
    title := pyOrS (some (mkInfo v av).title)
      (pyOrS dl.title (pyOrS dl.id (pyOrS (some v) (extractVideoId url)))),
    uploader := pyOrS (mkInfo v av).uploader dl.uploader,
    duration := pyOrN (mkInfo v av).duration dl.duration,
    webpageUrl := pyOrS dl.webpageUrl (some url) }

lemma downloadAudio_compute2 (c : Cache) (url : String)
    (api : String → Except NetErr (Option ApiVideo)) (dl : DlReport)
    (v : String) (av : ApiVideo)
    (hvid : extractVideoId url = some v) (hapi : api v = .ok (some av)) :
    downloadAudio c url true api dl =
      .ok (saveSidecar
            (addFileToDir
              (ensureTrackDir c (trackDirName (some (mkInfo v av).title) (some v)))
              (trackDirName (some (mkInfo v av).title) (some v)) ("audio." ++ dl.ext))
            (dlMeta url v av dl)
            (some (trackDirName (some (mkInfo v av).title) (some v))),
          trackDirName (some (mkInfo v av).title) (some v) ++ "/" ++ ("audio." ++ dl.ext)) :=
  downloadAudio_compute c url api dl v av hvid hapi

lemma dlMeta_id_eq (v : String) (av : ApiVideo) (dl : DlReport) (url : String)
    (hv : v ≠ "") (hdl : truthyStr dl.id = none ∨ dl.id = some v) :
    (dlMeta url v av dl).id = some v := by
  rcases hdl with h | h
  · simp only [dlMeta]
    unfold pyOrS
    rw [h]
    simp [truthyStr, hv]
  · simp [dlMeta, pyOrS, h, truthyStr, hv]

/-- A two-track-friendly API oracle: it knows exactly the video
`abcdefghijk`, titled `T`. -/
def wApi : String → Except NetErr (Option ApiVideo) :=
  fun u => if u = "abcdefghijk" then .ok (some { title := some "T" }) else .ok none

/-- A downloader report carrying only the audio extension. -/
def wDl : DlReport := { ext := "mp3" }

/-- The sidecar record the pipeline writes for `abcdefghijk`. -/
def wM1 : SMeta :=
  { id := some "abcdefghijk", title := some "T", uploader := none,
    duration := none, webpageUrl := some "https://www.youtube.com/watch?v=abcdefghijk" }

/-- The cache produced by resolving `https://youtu.be/abcdefghijk`
against an initially empty cache. -/
def wC2 : Cache :=
  [.flat "abcdefghijk.json",
   .dir { name := "T [abcdefgh]", meta := some (some wM1), files := ["audio.mp3"] }]

/-- A cache whose track directory already holds a stray audio file. -/
def cexCache : Cache :=
  [.dir { name := "T [abcdefgh]", meta := none, files := ["old.mp3"] }]

/-- The cache produced by resolving `https://youtu.be/abcdefghijk`
against `cexCache`. -/
def cexC2 : Cache :=
  [.dir { name := "T [abcdefgh]", meta := some (some wM1),
          files := ["old.mp3", "audio.mp3"] },
   .flat "abcdefghijk.json"]

/-- A downloader report whose self-reported id disagrees with the
resolved id. -/
def bDl : DlReport := { id := some "zzzzzzzzzzz", ext := "mp3" }

/-- The sidecar record written for `bDl`: `vid_final = info.get("id")
or vid or ...` takes the downloader's id. -/
def bM1 : SMeta :=
  { id := some "zzzzzzzzzzz", title := some "T", uploader := none,
    duration := none, webpageUrl := some "https://www.youtube.com/watch?v=abcdefghijk" }

/-- The cache produced by resolving `https://youtu.be/abcdefghijk`
against an empty cache with the disagreeing downloader report `bDl`:
the `meta.json` id is the downloader's, so the per-track tier of
`find_existing` will never match the resolved id again. -/
def bC2 : Cache :=
  [.flat "abcdefghijk.json",
   .dir { name := "T [abcdefgh]", meta := some (some bM1), files := ["audio.mp3"] },
   .flat "zzzzzzzzzzz.json"]

/-- C1 counterexample, refuting both halves of the claim.  Same-path
half: with a pre-existing stray `old.mp3` in the track directory, the
first resolve downloads and reports `audio.mp3`, while the second
resolve serves the cached directory's first audio file, `old.mp3` — a
different path than the first call returned.  At-most-one-fetch half:
when the downloader self-reports an id differing from the resolved id,
the written `meta.json` carries the downloader's id, `find_existing`
misses on the second call, and the download path runs again — two
fetches across two successful calls. -/
theorem resolve_twice_path_counterexample :
    (resolveAndMaybeDownload cexCache "https://youtu.be/abcdefghijk" true wApi wDl
      = (.ok (cexC2, "T [abcdefgh]/audio.mp3"), true) ∧
     resolveAndMaybeDownload cexC2 "https://youtu.be/abcdefghijk" true wApi wDl
      = (.ok (cexC2, "T [abcdefgh]/old.mp3"), false) ∧
     ("T [abcdefgh]/audio.mp3" : String) ≠ "T [abcdefgh]/old.mp3") ∧
    (resolveAndMaybeDownload [] "https://youtu.be/abcdefghijk" true wApi bDl
      = (.ok (bC2, "T [abcdefgh]/audio.mp3"), true) ∧
     (resolveAndMaybeDownload bC2 "https://youtu.be/abcdefghijk" true wApi bDl).2
      = true) :=
  ⟨⟨rfl, rfl, by decide⟩, rfl, rfl⟩

/-- C1 (amended): when a resolve call succeeds, then — provided the
downloader-reported id is absent or agrees with the resolved id, and
the per-item track directory held no pre-existing stray audio file —
calling `resolve_and_maybe_download` again with the same reference
finds the artifact via `find_existing` and returns the same cache and
the same path without invoking the download path, so under these
provisos the download fetch happens at most once across the two
calls.  (Both provisos are needed: the counterexample shows each half
failing without them.) -/
theorem resolve_twice_fetch_once_cached_path
    (c : Cache) (ref : String)
    (api : String → Except NetErr (Option ApiVideo)) (dl : DlReport)
    (v : String) (av : ApiVideo) (c1 : Cache) (p1 : String) (f1 : Bool)
    (hurl : isUrl ref = true)
    (hvid : extractVideoId ref = some v)
    (hapi : api v = .ok (some av))
    (hext : knownExts.contains (extOf ("audio." ++ dl.ext)) = true)
    (hdl : truthyStr dl.id = none ∨ dl.id = some v)
    (hstray : ∀ d, FsEntry.dir d ∈ c →
      d.name = trackDirName (some (mkInfo v av).title) (some v) →
      d.files.find? (fun f => knownExts.contains (extOf f)) = none)
    (hres : resolveAndMaybeDownload c ref true api dl = (.ok (c1, p1), f1)) :
    resolveAndMaybeDownload c1 ref true api dl = (.ok (c1, p1), false) := by
  have hsh := extractVideoId_shape ref v hvid
  have hv : v ≠ "" := extractVideoId_ne_empty ref v hvid
  have hvid2 : extractVideoId (watchUrl v) = some v :=
    extractVideoId_watchUrl v.data hsh.1 hsh.2
  have hcomp := resolve_compute c ref api dl v av hurl hvid hapi
  rcases hfe : findExisting c (some v) (some (mkInfo v av).title) with _ | p
  · have hPT := findPerTrack_none_of_findExisting_none c v
      (some (mkInfo v av).title) hv hfe
    have hda := downloadAudio_compute2 (saveSidecar c (metaOfInfo (mkInfo v av)) none)
      (watchUrl v) api dl v av hvid2 hapi
    have hfirst : resolveAndMaybeDownload c ref true api dl
        = (.ok (saveSidecar
              (addFileToDir
                (ensureTrackDir (saveSidecar c (metaOfInfo (mkInfo v av)) none)
                  (trackDirName (some (mkInfo v av).title) (some v)))
                (trackDirName (some (mkInfo v av).title) (some v)) ("audio." ++ dl.ext))
              (dlMeta (watchUrl v) v av dl)
              (some (trackDirName (some (mkInfo v av).title) (some v))),
            trackDirName (some (mkInfo v av).title) (some v) ++ "/" ++ ("audio." ++ dl.ext)),
          true) := by
      rw [hcomp, hfe, hda]
    rw [hfirst] at hres
    injection hres with h1 h2
    injection h1 with h3
    injection h3 with h4 h5
    subst h4
    subst h5
    rw [resolve_compute _ ref api dl v av hurl hvid hapi]
    have hM1id : (dlMeta (watchUrl v) v av dl).id = some v :=
      dlMeta_id_eq v av dl _ hv hdl
    have hc0 : saveSidecar c (metaOfInfo (mkInfo v av)) none
        = writeFlatFile c (v ++ ".json") :=
      saveSidecar_truthy_none c _ v rfl hv
    have hC2 : saveSidecar
          (addFileToDir
            (ensureTrackDir (saveSidecar c (metaOfInfo (mkInfo v av)) none)
              (trackDirName (some (mkInfo v av).title) (some v)))
            (trackDirName (some (mkInfo v av).title) (some v)) ("audio." ++ dl.ext))
          (dlMeta (watchUrl v) v av dl)
          (some (trackDirName (some (mkInfo v av).title) (some v)))
        = writeDirMeta (writeFlatFile
            (addFileToDir (ensureTrackDir (writeFlatFile c (v ++ ".json"))
                (trackDirName (some (mkInfo v av).title) (some v)))
              (trackDirName (some (mkInfo v av).title) (some v)) ("audio." ++ dl.ext))
            (v ++ ".json"))
          (trackDirName (some (mkInfo v av).title) (some v))
          (dlMeta (watchUrl v) v av dl) := by
      rw [hc0, saveSidecar_truthy_some _ _ v _ hM1id hv]
    rw [findExisting_of_perTrack _ v (some (mkInfo v av).title) _ hv
      (by
        rw [hC2]
        exact findPerTrack_pipeline c v _ _ _ _ _ hM1id hPT hext hstray)]
  · rw [hcomp, hfe] at hres
    have hres2 : ((.ok (c, p) : Except PyExc (Cache × String)), false)
        = ((.ok (c1, p1) : Except PyExc (Cache × String)), f1) := hres
    injection hres2 with h1 h2
    injection h1 with h3
    injection h3 with h4 h5
    subst h4
    subst h5
    rw [hcomp, hfe]

/-- Witness for `resolve_twice_fetch_once_cached_path`: resolving
`https://youtu.be/abcdefghijk` against an empty cache yields the cache
`wC2` and path `T [abcdefgh]/audio.mp3`; the theorem then gives that a
second resolve on `wC2` returns the same cache and path without
invoking the download path. -/
theorem resolve_twice_fetch_once_cached_path_witness :
    resolveAndMaybeDownload wC2 "https://youtu.be/abcdefghijk" true wApi wDl
      = (.ok (wC2, "T [abcdefgh]" ++ "/" ++ "audio.mp3"), false) :=
  resolve_twice_fetch_once_cached_path [] "https://youtu.be/abcdefghijk" wApi wDl
    "abcdefghijk" { title := some "T" } wC2 ("T [abcdefgh]" ++ "/" ++ "audio.mp3") true
    rfl rfl rfl (by decide) (Or.inl rfl)
    (fun d hd _ => absurd hd (List.not_mem_nil _))
    rfl

end Yplayer
